import Mathlib

/-!
# ni_usb: slot table of the NI USB comedi driver

A shallow embedding of `ni_usb.c`: the fixed table `ni_usb_sub[NUMNIUSB]`, the
global semaphore `start_stop_sem`, the per-slot semaphore `sem`, and the four
entry points `ni_usb_sub_probe`, `ni_usb_sub_disconnect`, `ni_usb_attach` and
`ni_usb_detach`.

Conventions of the embedding.

* C `int` flags (`probed`, `attached`, `high_speed`) are `Int`; a flag is
  "true" when it is not `0`, as in the C tests `if (x)` and `if (!x)`.
* A pointer to a kernel object (`struct usb_device *`, `struct usb_interface *`,
  `struct comedi_device *`) is a `Nat` address into a heap of such objects,
  `Option Nat` where the code stores or tests `NULL`.
* A `void *` that the driver only ever fills with `NULL` or `&ni_usb_sub[i]`
  (`dev->private`, the interface data) is an `Option (Fin NUMNIUSB)`.
* A semaphore is its count.  `down` on a count of `0` does not return in a
  sequential execution; the entry points therefore return an `Option`, and
  `none` means "blocked in `down`".
* Every `down`, `up` and every call of the external `comedi_usb_auto_unconfig`
  is appended to `State.trace`.
* Logging calls (`dev_dbg`, `dev_err`, `dev_info`, `printk`) have no effect on
  the state and are left out.
-/

namespace NiUsb

/-- The `#define NUMNIUSB 16`: total number of devices. -/
abbrev NUMNIUSB : Nat := 16

/-- Linux errno `EMFILE` ("too many open files"). -/
def EMFILE : Int := 24

/-- Linux errno `ENODEV` ("no such device"). -/
def ENODEV : Int := 19

/-- Linux errno `EFAULT` ("bad address"). -/
def EFAULT : Int := 14

/-- The value of `USB_SPEED_HIGH` in `enum usb_device_speed`
(`UNKNOWN = 0, LOW, FULL, HIGH`). -/
def USB_SPEED_HIGH : Int := 3

/-- The `struct ni_usb_sub`, field by field.  Pointers to buffers and urbs are
addresses (`none` is `NULL`); `sem` is the count of the semaphore. -/
structure ni_usb_sub where
  attached : Int
  probed : Int
  usbdev : Option Nat
  numOfInBuffers : Int
  numOfOutBuffers : Int
  urbIn : Option Nat
  urbOut : Option Nat
  urbPwm : Option Nat
  pwmPeriod : Nat
  pwmDelay : Int
  sizePwmBuf : Int
  inBuffer : Option Nat
  insnBuffer : Option Nat
  outBuffer : Option Nat
  ifnum : Int
  interface : Option Nat
  comedidev : Option Nat
  high_speed : Int
  ai_cmd_running : Int
  ao_cmd_running : Int
  pwm_cmd_running : Int
  ai_continous : Int
  ao_continous : Int
  ai_sample_count : Int
  ao_sample_count : Int
  ai_timer : Nat
  ao_timer : Nat
  ai_counter : Nat
  ao_counter : Nat
  ai_interval : Nat
  dac_commands : Option Nat
  dux_commands : Option Nat
  sem : Nat
  deriving DecidableEq, Repr

/-- A `struct usb_device`, as far as the driver reads it: its `speed`. -/
structure usb_device where
  speed : Int
  deriving DecidableEq, Repr

/-- A `struct usb_interface`, as far as the driver uses it: the device it
belongs to (`interface_to_usbdev`), `altsetting->desc.bInterfaceNumber`, and
the driver data of `usb_set_intfdata` / `usb_get_intfdata`. -/
structure usb_interface where
  usbdev : Nat
  bInterfaceNumber : Int
  intfdata : Option (Fin NUMNIUSB)
  deriving DecidableEq, Repr

/-- A `struct comedi_device`, as far as the driver uses it: `minor` and the
`private` pointer. -/
structure comedi_device where
  minor : Int
  «private» : Option (Fin NUMNIUSB)
  deriving DecidableEq, Repr

/-- A semaphore of the driver: the global `start_stop_sem` or the `sem` of
slot `i`. -/
inductive SemRef where
  | start_stop_sem
  | sem (i : Fin NUMNIUSB)
  deriving DecidableEq, Repr

/-- What the trace records: semaphore operations and calls of the external
`comedi_usb_auto_unconfig`. -/
inductive Event where
  | down (s : SemRef)
  | up (s : SemRef)
  | comedi_usb_auto_unconfig (udev : Nat)
  deriving DecidableEq, Repr

/-- The whole state the driver works on: the static array `ni_usb_sub`, the
static `start_stop_sem`, the kernel objects the driver is handed pointers to,
and the trace of semaphore operations and external calls. -/
structure State where
  ni_usb_sub : Fin NUMNIUSB → ni_usb_sub
  start_stop_sem : Nat
  usb_devices : Nat → usb_device
  usb_interfaces : Nat → usb_interface
  comedi_devices : Nat → comedi_device
  trace : List Event

/-- A zero-filled `struct ni_usb_sub`, the content of a static array element at
module load. -/
def ni_usb_sub_zero : ni_usb_sub where
  attached := 0
  probed := 0
  usbdev := none
  numOfInBuffers := 0
  numOfOutBuffers := 0
  urbIn := none
  urbOut := none
  urbPwm := none
  pwmPeriod := 0
  pwmDelay := 0
  sizePwmBuf := 0
  inBuffer := none
  insnBuffer := none
  outBuffer := none
  ifnum := 0
  interface := none
  comedidev := none
  high_speed := 0
  ai_cmd_running := 0
  ao_cmd_running := 0
  pwm_cmd_running := 0
  ai_continous := 0
  ao_continous := 0
  ai_sample_count := 0
  ao_sample_count := 0
  ai_timer := 0
  ao_timer := 0
  ai_counter := 0
  ao_counter := 0
  ai_interval := 0
  dac_commands := none
  dux_commands := none
  sem := 0

/-- The state at module load: `static struct ni_usb_sub ni_usb_sub[NUMNIUSB]`
is zero-filled, `DECLARE_MUTEX(start_stop_sem)` has count `1`; the kernel
objects are whatever the kernel holds. -/
def init_state (devs : Nat → usb_device) (intfs : Nat → usb_interface)
    (cdevs : Nat → comedi_device) : State where
  ni_usb_sub := fun _ => ni_usb_sub_zero
  start_stop_sem := 1
  usb_devices := devs
  usb_interfaces := intfs
  comedi_devices := cdevs
  trace := []

/-- An assignment through a slot pointer: `ni_usb_sub[i].field = ...`. -/
def set_slot (i : Fin NUMNIUSB) (f : ni_usb_sub → ni_usb_sub) (st : State) : State :=
  { st with ni_usb_sub := Function.update st.ni_usb_sub i (f (st.ni_usb_sub i)) }

/-- The count of a semaphore. -/
def sem_count (s : SemRef) (st : State) : Nat :=
  match s with
  | SemRef.start_stop_sem => st.start_stop_sem
  | SemRef.sem i => (st.ni_usb_sub i).sem

/-- Store a count into a semaphore. -/
def set_sem_count (s : SemRef) (n : Nat) (st : State) : State :=
  match s with
  | SemRef.start_stop_sem => { st with start_stop_sem := n }
  | SemRef.sem i => set_slot i (fun x => { x with sem := n }) st

/-- The kernel `down`: takes the semaphore when its count is positive, and
does not return (`none`) when it is `0`. -/
def down (s : SemRef) (st : State) : Option State :=
  if sem_count s st = 0 then none
  else
    let st1 := set_sem_count s (sem_count s st - 1) st
    some { st1 with trace := st1.trace ++ [Event.down s] }

/-- The kernel `up`: releases the semaphore. -/
def up (s : SemRef) (st : State) : State :=
  let st1 := set_sem_count s (sem_count s st + 1) st
  { st1 with trace := st1.trace ++ [Event.up s] }

/-- The kernel `init_MUTEX(&ni_usb_sub[i].sem)`: count `1`. -/
def init_MUTEX (i : Fin NUMNIUSB) (st : State) : State :=
  set_sem_count (SemRef.sem i) 1 st

/-- The kernel `interface_to_usbdev`. -/
def interface_to_usbdev (st : State) (intf : Nat) : Nat :=
  (st.usb_interfaces intf).usbdev

/-- The kernel `usb_get_intfdata`. -/
def usb_get_intfdata (st : State) (intf : Nat) : Option (Fin NUMNIUSB) :=
  (st.usb_interfaces intf).intfdata

/-- The kernel `usb_set_intfdata`. -/
def usb_set_intfdata (intf : Nat) (data : Option (Fin NUMNIUSB)) (st : State) : State :=
  let obj := st.usb_interfaces intf
  { st with usb_interfaces :=
      Function.update st.usb_interfaces intf { obj with intfdata := data } }

/-- The assignment `dev->private = p`. -/
def set_private (dev : Nat) (p : Option (Fin NUMNIUSB)) (st : State) : State :=
  let obj := st.comedi_devices dev
  { st with comedi_devices :=
      Function.update st.comedi_devices dev { obj with «private» := p } }

/-- Modelled from the spec: `comedi_usb_auto_unconfig` belongs to the comedi
core, not to this driver.  The spec calls it the external per-device teardown
hook of the transfer engine, out of scope beyond being safe to call; the model
records the call in the trace and leaves the driver's data alone. -/
def comedi_usb_auto_unconfig (udev : Nat) (st : State) : State :=
  { st with trace := st.trace ++ [Event.comedi_usb_auto_unconfig udev] }

/-- The scan loop shared by probe and attach,
`for (i = ...; i < NUMNIUSB; i++) if (cond(ni_usb_sub[i])) { index = i; break; }`,
entered at `i` with `n` iterations allowed.  `none` stands for `index == -1`. -/
def scan_from (cond : ni_usb_sub → Bool) (tbl : Fin NUMNIUSB → ni_usb_sub) :
    Nat → Nat → Option (Fin NUMNIUSB)
  | 0, _ => none
  | n + 1, i =>
    if h : i < NUMNIUSB then
      if cond (tbl ⟨i, h⟩) then some ⟨i, h⟩ else scan_from cond tbl n (i + 1)
    else none

/-- The loop run from `i = 0`; `NUMNIUSB` iterations are all it can make. -/
def scan (cond : ni_usb_sub → Bool) (tbl : Fin NUMNIUSB → ni_usb_sub) :
    Option (Fin NUMNIUSB) :=
  scan_from cond tbl NUMNIUSB 0

/-- The test of the probe loop: `!(ni_usb_sub[i].probed)`. -/
def is_free (s : ni_usb_sub) : Bool :=
  s.probed == 0

/-- The test of the attach loop:
`(ni_usb_sub[i].probed) && (!ni_usb_sub[i].attached)`. -/
def is_ready (s : ni_usb_sub) : Bool :=
  s.probed != 0 && s.attached == 0

/-- The function `ni_usb_sub_probe(uinterf, id)`; `id` is not used by the code.
Returns the C return value and the state after the call. -/
def ni_usb_sub_probe (uinterf : Nat) (st : State) : Option (Int × State) := do
  let udev := interface_to_usbdev st uinterf
  let st ← down SemRef.start_stop_sem st
  match scan is_free st.ni_usb_sub with
  | none =>
    let st := up SemRef.start_stop_sem st
    pure (-EMFILE, st)
  | some index =>
    let st := init_MUTEX index st
    let st := set_slot index (fun s => { s with usbdev := some udev }) st
    let st := set_slot index (fun s => { s with interface := some uinterf }) st
    let st := set_slot index
      (fun s => { s with ifnum := (st.usb_interfaces uinterf).bInterfaceNumber }) st
    let st := usb_set_intfdata uinterf (some index) st
    let st := set_slot index (fun s => { s with high_speed :=
      match s.usbdev with
      | some d => if (st.usb_devices d).speed = USB_SPEED_HIGH then 1 else 0
      | none => 0 }) st
    let st := set_slot index (fun s => { s with probed := 1 }) st
    let st := up SemRef.start_stop_sem st
    pure (0, st)

/-- The function `ni_usb_sub_disconnect(intf)`. -/
def ni_usb_sub_disconnect (intf : Nat) (st : State) : Option State :=
  let udev := interface_to_usbdev st intf
  match usb_get_intfdata st intf with
  | none => some st
  | some tmp =>
    if (st.ni_usb_sub tmp).usbdev ≠ some udev then some st
    else do
      let st := comedi_usb_auto_unconfig udev st
      let st ← down SemRef.start_stop_sem st
      let st ← down (SemRef.sem tmp) st
      let st := up (SemRef.sem tmp) st
      let st := up SemRef.start_stop_sem st
      pure st

/-- The function `ni_usb_attach(dev, it)`; `it` is not used by the code. -/
def ni_usb_attach (dev : Nat) (st : State) : Option (Int × State) := do
  let st := set_private dev none st
  let st ← down SemRef.start_stop_sem st
  match scan is_ready st.ni_usb_sub with
  | none =>
    let st := up SemRef.start_stop_sem st
    pure (-ENODEV, st)
  | some index =>
    let st ← down (SemRef.sem index) st
    let st := set_slot index (fun s => { s with comedidev := some dev }) st
    let st := set_slot index (fun s => { s with attached := 1 }) st
    let st := up (SemRef.sem index) st
    let st := up SemRef.start_stop_sem st
    pure (0, st)

/-- The function `ni_usb_detach(dev)`; `dev` may be `NULL`. -/
def ni_usb_detach (dev : Option Nat) (st : State) : Option (Int × State) :=
  match dev with
  | none => some (-EFAULT, st)
  | some d =>
    match (st.comedi_devices d).«private» with
    | none => some (-EFAULT, st)
    | some tmp => do
      let st ← down (SemRef.sem tmp) st
      let st := set_private d none st
      let st := set_slot tmp (fun s => { s with attached := 0 }) st
      let st := set_slot tmp (fun s => { s with comedidev := none }) st
      let st := up (SemRef.sem tmp) st
      pure (0, st)

/-- A call of one of the four entry points. -/
inductive Call where
  | probe (uinterf : Nat)
  | disconnect (intf : Nat)
  | attach (dev : Nat)
  | detach (dev : Option Nat)
  deriving DecidableEq, Repr

/-- One call, keeping the state only. -/
def step (c : Call) (st : State) : Option State :=
  match c with
  | Call.probe u => (ni_usb_sub_probe u st).map Prod.snd
  | Call.disconnect u => ni_usb_sub_disconnect u st
  | Call.attach d => (ni_usb_attach d st).map Prod.snd
  | Call.detach d => (ni_usb_detach d st).map Prod.snd

/-- A sequence of calls, one after the other; `none` when one of them blocks. -/
def run : List Call → State → Option State
  | [], st => some st
  | c :: cs, st => (step c st).bind (run cs)

/-- No semaphore the calls can take is held: the count of `start_stop_sem` is
not `0`, and neither is the count of the `sem` of any probed slot (the `sem`
of a slot that was never probed has not been through `init_MUTEX`). -/
def locks_free (st : State) : Prop :=
  st.start_stop_sem ≠ 0 ∧ ∀ i, (st.ni_usb_sub i).probed ≠ 0 → (st.ni_usb_sub i).sem ≠ 0

/-- The calls `probe (us 0)`, ..., `probe (us (k - 1))`: `k` devices plugged in,
one after the other, the `n`-th through the interface at address `us n`. -/
def probe_calls (us : Nat → Nat) (k : Nat) : List Call :=
  (List.range k).map (fun n => Call.probe (us n))

/-- The shape of the table after `k` devices were plugged in and nothing
else happened: `start_stop_sem` is free, the slots below `k` have `probed = 1`
and the others `probed = 0`. -/
def first_probed (k : Nat) (st : State) : Prop :=
  st.start_stop_sem ≠ 0 ∧
    ∀ i : Fin NUMNIUSB, (st.ni_usb_sub i).probed = if i.val < k then 1 else 0

/-- A state in which no call blocks: `start_stop_sem` is free, the `sem` of
every slot that is probed or has a device handle is free, and no comedi device
has a private pointer. -/
def quiet (st : State) : Prop :=
  st.start_stop_sem ≠ 0 ∧
    (∀ i, (st.ni_usb_sub i).probed ≠ 0 ∨ (st.ni_usb_sub i).usbdev ≠ none →
      (st.ni_usb_sub i).sem ≠ 0) ∧
    ∀ d, (st.comedi_devices d).«private» = none

/-! ## A concrete machine for the examples

USB device `n` is a high-speed device, interface `n` belongs to device `n`, has
interface number `0` and no driver data; comedi device `n` has minor `n` and a
`NULL` private pointer. -/

/-- The USB devices of the examples. -/
def demo_devs : Nat → usb_device := fun _ => { speed := USB_SPEED_HIGH }

/-- The USB interfaces of the examples. -/
def demo_intfs : Nat → usb_interface :=
  fun n => { usbdev := n, bInterfaceNumber := 0, intfdata := none }

/-- The comedi devices of the examples. -/
def demo_cdevs : Nat → comedi_device := fun n => { minor := n, «private» := none }

/-- The state at module load of the examples. -/
def demo_init : State := init_state demo_devs demo_intfs demo_cdevs

/-- The state of a run of the examples; the initial state if the run blocks. -/
def demo_after (calls : List Call) : State := (run calls demo_init).getD demo_init

/-- A run of the examples: a device is plugged in, claimed, a detach is tried,
the device is unplugged, and more claims and a second device follow. -/
def demo_calls : List Call :=
  [Call.probe 5, Call.attach 7, Call.detach (some 7), Call.disconnect 5,
    Call.attach 8, Call.probe 6, Call.attach 9]

/-- The events a call added to the trace: what the trace of the state after the
call has beyond the trace of the state before. -/
def events_of (st st1 : State) : List Event :=
  st1.trace.drop st.trace.length

/-- Whether a semaphore is the `sem` of a slot. -/
def is_local (s : SemRef) : Bool :=
  match s with
  | SemRef.start_stop_sem => false
  | SemRef.sem _ => true

/-- Replays the events of one call against the list `held` of the semaphores
the call holds, and checks every `down`:
the semaphore taken is not already held by the call;
`start_stop_sem` is taken only while no slot's `sem` is held;
and, when `both` is set, a slot's `sem` is taken only while `start_stop_sem` is
held.  An `up` releases, a call of the teardown hook changes nothing. -/
def lock_order_ok (both : Bool) : List SemRef → List Event → Bool
  | _, [] => true
  | held, Event.down s :: es =>
    !held.contains s &&
      (is_local s || held.all (fun t => !is_local t)) &&
      (!(both && is_local s) || held.contains SemRef.start_stop_sem) &&
      lock_order_ok both (s :: held) es
  | held, Event.up s :: es => lock_order_ok both (held.erase s) es
  | held, Event.comedi_usb_auto_unconfig _ :: es => lock_order_ok both held es

/-- All semaphores are free: the count of `start_stop_sem` and of the `sem` of
every slot is `1`, the count of a mutex nobody holds. -/
def all_free (st : State) : Prop :=
  st.start_stop_sem = 1 ∧ ∀ i, (st.ni_usb_sub i).sem = 1

/-- The state at module load of the examples with the `sem` of every slot
initialised to a free mutex. -/
def demo_all_free : State :=
  { demo_init with ni_usb_sub := fun _ => { ni_usb_sub_zero with sem := 1 } }

/-- Whether the call is a probe that returns `0` in this state. -/
def succeeded_probe (c : Call) (st : State) : Bool :=
  match c with
  | Call.probe u => (ni_usb_sub_probe u st).map Prod.fst == some 0
  | _ => false

/-- The number of probe calls that return `0` in a run of the sequence of
calls from a state; a call that blocks ends the run. -/
def probe_successes : List Call → State → Nat
  | [], _ => 0
  | c :: cs, st =>
    match step c st with
    | none => 0
    | some st1 => (if succeeded_probe c st then 1 else 0) + probe_successes cs st1

/-- The slots that are not probed. -/
def free_slots (st : State) : Finset (Fin NUMNIUSB) :=
  Finset.univ.filter (fun i => (st.ni_usb_sub i).probed = 0)

/-- The state of a run from a state; that state itself if the run blocks. -/
def state_after (calls : List Call) (st : State) : State :=
  (run calls st).getD st

/-! ## The scan loop -/

theorem scan_from_some {cond : ni_usb_sub → Bool} {tbl : Fin NUMNIUSB → ni_usb_sub} :
    ∀ (n i : Nat) (k : Fin NUMNIUSB), scan_from cond tbl n i = some k →
      i ≤ k.val ∧ cond (tbl k) = true ∧
        ∀ j : Fin NUMNIUSB, i ≤ j.val → j.val < k.val → cond (tbl j) = false := by
  intro n
  induction n with
  | zero => intro i k h; simp [scan_from] at h
  | succ n ih =>
    intro i k h
    unfold scan_from at h
    split at h
    · rename_i hi
      split at h
      · rename_i hc
        have hk : k = ⟨i, hi⟩ := by simpa using h.symm
        subst hk
        refine ⟨le_refl _, hc, ?_⟩
        intro j h1 h2
        exact absurd h2 (not_lt.mpr h1)
      · rename_i hc
        obtain ⟨h1, h2, h3⟩ := ih (i + 1) k h
        refine ⟨by omega, h2, ?_⟩
        intro j hj1 hj2
        by_cases hji : j.val = i
        · have : j = ⟨i, hi⟩ := Fin.ext hji
          subst this
          simpa using hc
        · exact h3 j (by omega) hj2
    · simp at h

theorem scan_from_none {cond : ni_usb_sub → Bool} {tbl : Fin NUMNIUSB → ni_usb_sub} :
    ∀ (n i : Nat), NUMNIUSB ≤ i + n → scan_from cond tbl n i = none →
      ∀ j : Fin NUMNIUSB, i ≤ j.val → cond (tbl j) = false := by
  intro n
  induction n with
  | zero =>
    intro i hn _ j hj
    have := j.isLt
    omega
  | succ n ih =>
    intro i hn h j hj
    unfold scan_from at h
    split at h
    · rename_i hi
      split at h
      · simp at h
      · rename_i hc
        by_cases hji : j.val = i
        · have : j = ⟨i, hi⟩ := Fin.ext hji
          subst this
          simpa using hc
        · exact ih (i + 1) (by omega) h j (by omega)
    · have := j.isLt
      omega

theorem scan_eq_none_iff (cond : ni_usb_sub → Bool) (tbl : Fin NUMNIUSB → ni_usb_sub) :
    scan cond tbl = none ↔ ∀ j : Fin NUMNIUSB, cond (tbl j) = false := by
  constructor
  · intro h j
    exact scan_from_none NUMNIUSB 0 (by simp) h j (Nat.zero_le _)
  · intro h
    cases hs : scan cond tbl with
    | none => rfl
    | some k =>
      have := (scan_from_some NUMNIUSB 0 k hs).2.1
      rw [h k] at this
      exact absurd this (by simp)

theorem scan_eq_some_iff (cond : ni_usb_sub → Bool) (tbl : Fin NUMNIUSB → ni_usb_sub)
    (k : Fin NUMNIUSB) :
    scan cond tbl = some k ↔
      cond (tbl k) = true ∧ ∀ j : Fin NUMNIUSB, j < k → cond (tbl j) = false := by
  constructor
  · intro h
    obtain ⟨_, h2, h3⟩ := scan_from_some NUMNIUSB 0 k h
    exact ⟨h2, fun j hj => h3 j (Nat.zero_le _) hj⟩
  · rintro ⟨h1, h2⟩
    cases hs : scan cond tbl with
    | none =>
      have := (scan_eq_none_iff cond tbl).mp hs k
      rw [h1] at this
      exact absurd this (by simp)
    | some k2 =>
      obtain ⟨_, h3, h4⟩ := scan_from_some NUMNIUSB 0 k2 hs
      rcases lt_trichotomy k2 k with hlt | heq | hgt
      · rw [h2 k2 hlt] at h3
        exact absurd h3 (by simp)
      · rw [heq]
      · have := h4 k (Nat.zero_le _) hgt
        rw [h1] at this
        exact absurd this (by simp)


/-! ## Closed forms of the entry points -/

theorem probe_full (u : Nat) (st : State) (hg : st.start_stop_sem ≠ 0)
    (hs : scan is_free st.ni_usb_sub = none) :
    ni_usb_sub_probe u st = some (-EMFILE,
      { st with trace := st.trace ++
          [Event.down SemRef.start_stop_sem, Event.up SemRef.start_stop_sem] }) := by
  have h1 : st.start_stop_sem - 1 + 1 = st.start_stop_sem := Nat.sub_add_cancel (by omega)
  simp [ni_usb_sub_probe, down, up, sem_count, set_sem_count, hg, hs, h1]

theorem probe_free (u : Nat) (st : State) (i : Fin NUMNIUSB) (hg : st.start_stop_sem ≠ 0)
    (hs : scan is_free st.ni_usb_sub = some i) :
    ni_usb_sub_probe u st = some (0,
      { st with
        ni_usb_sub := Function.update st.ni_usb_sub i
          { (st.ni_usb_sub i) with
            sem := 1
            usbdev := some (st.usb_interfaces u).usbdev
            interface := some u
            ifnum := (st.usb_interfaces u).bInterfaceNumber
            high_speed :=
              if (st.usb_devices (st.usb_interfaces u).usbdev).speed = USB_SPEED_HIGH
              then 1 else 0
            probed := 1 }
        usb_interfaces := Function.update st.usb_interfaces u
          { (st.usb_interfaces u) with intfdata := some i }
        trace := st.trace ++
          [Event.down SemRef.start_stop_sem, Event.up SemRef.start_stop_sem] }) := by
  have h1 : st.start_stop_sem - 1 + 1 = st.start_stop_sem := Nat.sub_add_cancel (by omega)
  simp [ni_usb_sub_probe, down, up, sem_count, set_sem_count, hg, hs, h1, init_MUTEX,
    set_slot, usb_set_intfdata, interface_to_usbdev]

theorem attach_none (dev : Nat) (st : State) (hg : st.start_stop_sem ≠ 0)
    (hs : scan is_ready st.ni_usb_sub = none) :
    ni_usb_attach dev st = some (-ENODEV,
      { st with
        comedi_devices := Function.update st.comedi_devices dev
          { (st.comedi_devices dev) with «private» := none }
        trace := st.trace ++
          [Event.down SemRef.start_stop_sem, Event.up SemRef.start_stop_sem] }) := by
  have h1 : st.start_stop_sem - 1 + 1 = st.start_stop_sem := Nat.sub_add_cancel (by omega)
  simp [ni_usb_attach, down, up, sem_count, set_sem_count, hg, hs, h1, set_private]

theorem attach_ready (dev : Nat) (st : State) (i : Fin NUMNIUSB)
    (hg : st.start_stop_sem ≠ 0) (hl : (st.ni_usb_sub i).sem ≠ 0)
    (hs : scan is_ready st.ni_usb_sub = some i) :
    ni_usb_attach dev st = some (0,
      { st with
        ni_usb_sub := Function.update st.ni_usb_sub i
          { (st.ni_usb_sub i) with comedidev := some dev, attached := 1 }
        comedi_devices := Function.update st.comedi_devices dev
          { (st.comedi_devices dev) with «private» := none }
        trace := st.trace ++
          [Event.down SemRef.start_stop_sem, Event.down (SemRef.sem i),
           Event.up (SemRef.sem i), Event.up SemRef.start_stop_sem] }) := by
  have h1 : st.start_stop_sem - 1 + 1 = st.start_stop_sem := Nat.sub_add_cancel (by omega)
  have h2 : (st.ni_usb_sub i).sem - 1 + 1 = (st.ni_usb_sub i).sem :=
    Nat.sub_add_cancel (by omega)
  simp [ni_usb_attach, down, up, sem_count, set_sem_count, hg, hl, hs, h1, h2, set_private,
    set_slot]

theorem detach_null (st : State) : ni_usb_detach none st = some (-EFAULT, st) := rfl

theorem detach_no_private (d : Nat) (st : State)
    (hp : (st.comedi_devices d).«private» = none) :
    ni_usb_detach (some d) st = some (-EFAULT, st) := by
  simp [ni_usb_detach, hp]

theorem detach_private (d : Nat) (st : State) (i : Fin NUMNIUSB)
    (hp : (st.comedi_devices d).«private» = some i) (hl : (st.ni_usb_sub i).sem ≠ 0) :
    ni_usb_detach (some d) st = some (0,
      { st with
        ni_usb_sub := Function.update st.ni_usb_sub i
          { (st.ni_usb_sub i) with attached := 0, comedidev := none }
        comedi_devices := Function.update st.comedi_devices d
          { (st.comedi_devices d) with «private» := none }
        trace := st.trace ++ [Event.down (SemRef.sem i), Event.up (SemRef.sem i)] }) := by
  have h2 : (st.ni_usb_sub i).sem - 1 + 1 = (st.ni_usb_sub i).sem :=
    Nat.sub_add_cancel (by omega)
  simp [ni_usb_detach, down, up, sem_count, set_sem_count, hp, hl, h2, set_private, set_slot]

theorem disconnect_no_data (intf : Nat) (st : State)
    (hd : (st.usb_interfaces intf).intfdata = none) :
    ni_usb_sub_disconnect intf st = some st := by
  simp [ni_usb_sub_disconnect, usb_get_intfdata, hd]

theorem disconnect_mismatch (intf : Nat) (st : State) (i : Fin NUMNIUSB)
    (hd : (st.usb_interfaces intf).intfdata = some i)
    (hu : (st.ni_usb_sub i).usbdev ≠ some (st.usb_interfaces intf).usbdev) :
    ni_usb_sub_disconnect intf st = some st := by
  simp [ni_usb_sub_disconnect, usb_get_intfdata, interface_to_usbdev, hd, hu]

theorem disconnect_match (intf : Nat) (st : State) (i : Fin NUMNIUSB)
    (hd : (st.usb_interfaces intf).intfdata = some i)
    (hu : (st.ni_usb_sub i).usbdev = some (st.usb_interfaces intf).usbdev)
    (hg : st.start_stop_sem ≠ 0) (hl : (st.ni_usb_sub i).sem ≠ 0) :
    ni_usb_sub_disconnect intf st = some
      { st with trace := st.trace ++
          [Event.comedi_usb_auto_unconfig (st.usb_interfaces intf).usbdev,
           Event.down SemRef.start_stop_sem, Event.down (SemRef.sem i),
           Event.up (SemRef.sem i), Event.up SemRef.start_stop_sem] } := by
  have h1 : st.start_stop_sem - 1 + 1 = st.start_stop_sem := Nat.sub_add_cancel (by omega)
  have h2 : (st.ni_usb_sub i).sem - 1 + 1 = (st.ni_usb_sub i).sem :=
    Nat.sub_add_cancel (by omega)
  simp [ni_usb_sub_disconnect, usb_get_intfdata, interface_to_usbdev, hd, hu, down, up,
    sem_count, set_sem_count, hg, hl, h1, h2, set_slot, comedi_usb_auto_unconfig]
  rw [← hu]

/-! ## When a call returns -/

theorem probe_returns {u : Nat} {st : State} {x : Int × State}
    (h : ni_usb_sub_probe u st = some x) : st.start_stop_sem ≠ 0 := by
  intro h0
  simp [ni_usb_sub_probe, down, sem_count, h0] at h

theorem attach_returns {d : Nat} {st : State} {x : Int × State}
    (h : ni_usb_attach d st = some x) :
    st.start_stop_sem ≠ 0 ∧
      ∀ i, scan is_ready st.ni_usb_sub = some i → (st.ni_usb_sub i).sem ≠ 0 := by
  constructor
  · intro h0
    simp [ni_usb_attach, down, sem_count, h0, set_private] at h
  · intro i hs h0
    by_cases hg : st.start_stop_sem = 0
    · simp [ni_usb_attach, down, sem_count, hg, set_private] at h
    · simp [ni_usb_attach, down, sem_count, set_sem_count, hg, set_private, hs, h0] at h

theorem detach_returns {d : Nat} {st : State} {x : Int × State}
    (h : ni_usb_detach (some d) st = some x) :
    ∀ i, (st.comedi_devices d).«private» = some i → (st.ni_usb_sub i).sem ≠ 0 := by
  intro i hp h0
  simp [ni_usb_detach, hp, down, sem_count, h0] at h

theorem disconnect_returns {intf : Nat} {st st1 : State}
    (h : ni_usb_sub_disconnect intf st = some st1) :
    ∀ i, (st.usb_interfaces intf).intfdata = some i →
      (st.ni_usb_sub i).usbdev = some (st.usb_interfaces intf).usbdev →
      st.start_stop_sem ≠ 0 ∧ (st.ni_usb_sub i).sem ≠ 0 := by
  intro i hd hu
  constructor
  · intro h0
    simp [ni_usb_sub_disconnect, usb_get_intfdata, interface_to_usbdev, hd, hu, down, sem_count,
      h0, comedi_usb_auto_unconfig] at h
  · intro h0
    by_cases hg : st.start_stop_sem = 0
    · simp [ni_usb_sub_disconnect, usb_get_intfdata, interface_to_usbdev, hd, hu, down,
        sem_count, hg, comedi_usb_auto_unconfig] at h
    · simp [ni_usb_sub_disconnect, usb_get_intfdata, interface_to_usbdev, hd, hu, down,
        sem_count, set_sem_count, hg, h0, comedi_usb_auto_unconfig] at h

/-! ## The effect of a call on the slot table -/

theorem disconnect_table {intf : Nat} {st st1 : State}
    (h : ni_usb_sub_disconnect intf st = some st1) : st1.ni_usb_sub = st.ni_usb_sub := by
  cases hd : (st.usb_interfaces intf).intfdata with
  | none =>
    rw [disconnect_no_data intf st hd] at h
    cases h
    rfl
  | some i =>
    by_cases hu : (st.ni_usb_sub i).usbdev = some (st.usb_interfaces intf).usbdev
    · obtain ⟨hg, hl⟩ := disconnect_returns h i hd hu
      rw [disconnect_match intf st i hd hu hg hl] at h
      cases h
      rfl
    · rw [disconnect_mismatch intf st i hd hu] at h
      cases h
      rfl

theorem probe_table {u : Nat} {st st1 : State} {r : Int}
    (h : ni_usb_sub_probe u st = some (r, st1)) (j : Fin NUMNIUSB) :
    (st1.ni_usb_sub j).attached = (st.ni_usb_sub j).attached ∧
      ((st1.ni_usb_sub j).probed = (st.ni_usb_sub j).probed ∨
        ((st.ni_usb_sub j).probed = 0 ∧ (st1.ni_usb_sub j).probed = 1)) := by
  have hg := probe_returns h
  cases hs : scan is_free st.ni_usb_sub with
  | none =>
    rw [probe_full u st hg hs] at h
    cases h
    exact ⟨rfl, Or.inl rfl⟩
  | some i =>
    rw [probe_free u st i hg hs] at h
    cases h
    have hi := ((scan_eq_some_iff _ _ _).mp hs).1
    by_cases hji : j = i
    · subst hji
      simp [is_free] at hi
      simp [hi]
    · simp [Function.update_noteq hji]

theorem attach_table {d : Nat} {st st1 : State} {r : Int}
    (h : ni_usb_attach d st = some (r, st1)) (j : Fin NUMNIUSB) :
    (st1.ni_usb_sub j).probed = (st.ni_usb_sub j).probed ∧
      ((st1.ni_usb_sub j).attached = (st.ni_usb_sub j).attached ∨
        ((st.ni_usb_sub j).probed ≠ 0 ∧ (st.ni_usb_sub j).attached = 0 ∧
          (st1.ni_usb_sub j).attached = 1)) := by
  obtain ⟨hg, hl⟩ := attach_returns h
  cases hs : scan is_ready st.ni_usb_sub with
  | none =>
    rw [attach_none d st hg hs] at h
    cases h
    exact ⟨rfl, Or.inl rfl⟩
  | some i =>
    rw [attach_ready d st i hg (hl i hs) hs] at h
    cases h
    have hi := ((scan_eq_some_iff _ _ _).mp hs).1
    by_cases hji : j = i
    · subst hji
      simp [is_ready] at hi
      simp [hi]
    · simp [Function.update_noteq hji]

theorem detach_table {d : Option Nat} {st st1 : State} {r : Int}
    (h : ni_usb_detach d st = some (r, st1)) (j : Fin NUMNIUSB) :
    (st1.ni_usb_sub j).probed = (st.ni_usb_sub j).probed ∧
      ((st1.ni_usb_sub j).attached = (st.ni_usb_sub j).attached ∨
        (st1.ni_usb_sub j).attached = 0) := by
  cases d with
  | none =>
    rw [detach_null] at h
    cases h
    exact ⟨rfl, Or.inl rfl⟩
  | some d =>
    cases hp : (st.comedi_devices d).«private» with
    | none =>
      rw [detach_no_private d st hp] at h
      cases h
      exact ⟨rfl, Or.inl rfl⟩
    | some i =>
      rw [detach_private d st i hp (detach_returns h i hp)] at h
      cases h
      by_cases hji : j = i
      · subst hji
        simp
      · simp [Function.update_noteq hji]

/-- One call keeps "attached only if probed". -/
theorem step_keeps_attached_probed {c : Call} {st st1 : State} (h : step c st = some st1)
    (hinv : ∀ i, (st.ni_usb_sub i).attached ≠ 0 → (st.ni_usb_sub i).probed ≠ 0) :
    ∀ i, (st1.ni_usb_sub i).attached ≠ 0 → (st1.ni_usb_sub i).probed ≠ 0 := by
  intro i
  cases c with
  | probe u =>
    simp only [step, Option.map_eq_some'] at h
    obtain ⟨⟨r, s⟩, h, rfl⟩ := h
    obtain ⟨h1, h2⟩ := probe_table h i
    have := hinv i
    rcases h2 with h2 | ⟨_, h2⟩
    · simp only [h1, h2]; exact this
    · intro _; simp [h2]
  | disconnect u =>
    simp only [step] at h
    rw [disconnect_table h]
    exact hinv i
  | attach d =>
    simp only [step, Option.map_eq_some'] at h
    obtain ⟨⟨r, s⟩, h, rfl⟩ := h
    obtain ⟨h1, h2⟩ := attach_table h i
    have := hinv i
    rcases h2 with h2 | ⟨h2, _, _⟩
    · simp only [h1, h2]; exact this
    · intro _; simp only [h1]; exact h2
  | detach d =>
    simp only [step, Option.map_eq_some'] at h
    obtain ⟨⟨r, s⟩, h, rfl⟩ := h
    obtain ⟨h1, h2⟩ := detach_table h i
    have := hinv i
    rcases h2 with h2 | h2
    · simp only [h1, h2]; exact this
    · intro h3; exact absurd h2 h3

theorem run_keeps_attached_probed :
    ∀ (calls : List Call) (st st1 : State), run calls st = some st1 →
      (∀ i, (st.ni_usb_sub i).attached ≠ 0 → (st.ni_usb_sub i).probed ≠ 0) →
      ∀ i, (st1.ni_usb_sub i).attached ≠ 0 → (st1.ni_usb_sub i).probed ≠ 0 := by
  intro calls
  induction calls with
  | nil =>
    intro st st1 h hinv
    simp only [run, Option.some.injEq] at h
    subst h
    exact hinv
  | cons c cs ih =>
    intro st st1 h hinv
    simp only [run, Option.bind_eq_some] at h
    obtain ⟨s, hs, hr⟩ := h
    exact ih s st1 hr (step_keeps_attached_probed hs hinv)

/-! ## Runs that do not block -/

theorem step_quiet (c : Call) (st : State) (hq : quiet st) :
    ∃ st1, step c st = some st1 ∧ quiet st1 := by
  obtain ⟨hg, hsem, hpriv⟩ := hq
  cases c with
  | probe u =>
    cases hs : scan is_free st.ni_usb_sub with
    | none =>
      exact ⟨_, congrArg (Option.map Prod.snd) (probe_full u st hg hs), hg, hsem, hpriv⟩
    | some i =>
      refine ⟨_, congrArg (Option.map Prod.snd) (probe_free u st i hg hs), hg, ?_, hpriv⟩
      intro j hj
      by_cases hji : j = i
      · subst hji
        simp
      · simp only [Function.update_noteq hji] at hj ⊢
        exact hsem j hj
  | disconnect u =>
    cases hd : (st.usb_interfaces u).intfdata with
    | none => exact ⟨st, disconnect_no_data u st hd, hg, hsem, hpriv⟩
    | some i =>
      by_cases hu : (st.ni_usb_sub i).usbdev = some (st.usb_interfaces u).usbdev
      · have hl : (st.ni_usb_sub i).sem ≠ 0 := hsem i (Or.inr (by simp [hu]))
        exact ⟨_, disconnect_match u st i hd hu hg hl, hg, hsem, hpriv⟩
      · exact ⟨st, disconnect_mismatch u st i hd hu, hg, hsem, hpriv⟩
  | attach d =>
    have hpriv1 : ∀ e, (Function.update st.comedi_devices d
        { (st.comedi_devices d) with «private» := none } e).«private» = none := by
      intro e
      by_cases hed : e = d
      · subst hed
        simp
      · simp only [Function.update_noteq hed]
        exact hpriv e
    cases hs : scan is_ready st.ni_usb_sub with
    | none =>
      exact ⟨_, congrArg (Option.map Prod.snd) (attach_none d st hg hs), hg, hsem, hpriv1⟩
    | some i =>
      have hi := ((scan_eq_some_iff _ _ _).mp hs).1
      have hp : (st.ni_usb_sub i).probed ≠ 0 := by
        simp [is_ready] at hi
        exact hi.1
      have hl : (st.ni_usb_sub i).sem ≠ 0 := hsem i (Or.inl hp)
      refine ⟨_, congrArg (Option.map Prod.snd) (attach_ready d st i hg hl hs), hg, ?_, hpriv1⟩
      intro j hj
      by_cases hji : j = i
      · subst hji
        simpa using hl
      · simp only [Function.update_noteq hji] at hj ⊢
        exact hsem j hj
  | detach d =>
    cases d with
    | none => exact ⟨st, congrArg (Option.map Prod.snd) (detach_null st), hg, hsem, hpriv⟩
    | some d =>
      exact ⟨st, congrArg (Option.map Prod.snd) (detach_no_private d st (hpriv d)), hg, hsem, hpriv⟩

theorem run_quiet : ∀ (calls : List Call) (st : State), quiet st →
    ∃ st1, run calls st = some st1 ∧ quiet st1 := by
  intro calls
  induction calls with
  | nil => intro st hq; exact ⟨st, rfl, hq⟩
  | cons c cs ih =>
    intro st hq
    obtain ⟨s, hs, hq1⟩ := step_quiet c st hq
    obtain ⟨s1, hr, hq2⟩ := ih s hq1
    exact ⟨s1, by simp [run, hs, hr], hq2⟩

theorem quiet_init (devs : Nat → usb_device) (intfs : Nat → usb_interface)
    (cdevs : Nat → comedi_device) (h : ∀ d, (cdevs d).«private» = none) :
    quiet (init_state devs intfs cdevs) := by
  refine ⟨by simp [init_state], ?_, h⟩
  intro i hi
  simp [init_state, ni_usb_sub_zero] at hi

/-! ## Filling the table -/

theorem run_append (a b : List Call) (st : State) :
    run (a ++ b) st = (run a st).bind (run b) := by
  induction a generalizing st with
  | nil => simp [run]
  | cons c cs ih =>
    simp only [List.cons_append, run]
    cases step c st with
    | none => simp
    | some s => simp [ih]

theorem probe_calls_succ (us : Nat → Nat) (k : Nat) :
    probe_calls us (k + 1) = probe_calls us k ++ [Call.probe (us k)] := by
  simp [probe_calls, List.range_succ]

theorem run_probe_calls_succ (us : Nat → Nat) (k : Nat) (st s s1 : State) (r : Int)
    (h : run (probe_calls us k) st = some s) (hp : ni_usb_sub_probe (us k) s = some (r, s1)) :
    run (probe_calls us (k + 1)) st = some s1 := by
  rw [probe_calls_succ, run_append, h]
  simp [run, step, hp]

theorem first_probed_scan {k : Nat} {st : State} (h : first_probed k st) (hk : k < NUMNIUSB) :
    scan is_free st.ni_usb_sub = some ⟨k, hk⟩ := by
  rw [scan_eq_some_iff]
  constructor
  · simp [is_free, h.2]
  · intro j hj
    have hj2 : j.val < k := hj
    simp [is_free, h.2, hj2]

theorem first_probed_full {st : State} (h : first_probed NUMNIUSB st) :
    scan is_free st.ni_usb_sub = none := by
  rw [scan_eq_none_iff]
  intro j
  simp [is_free, h.2, j.isLt]

theorem first_probed_init (devs : Nat → usb_device) (intfs : Nat → usb_interface)
    (cdevs : Nat → comedi_device) : first_probed 0 (init_state devs intfs cdevs) := by
  constructor
  · simp [init_state]
  · intro i
    simp [init_state, ni_usb_sub_zero]

theorem first_probed_probe {k : Nat} {st : State} (u : Nat) (h : first_probed k st)
    (hk : k < NUMNIUSB) :
    ∃ s1, ni_usb_sub_probe u st = some (0, s1) ∧ first_probed (k + 1) s1 ∧
      (st.ni_usb_sub ⟨k, hk⟩).probed = 0 ∧ (s1.ni_usb_sub ⟨k, hk⟩).probed = 1 ∧
      (s1.usb_interfaces u).intfdata = some ⟨k, hk⟩ ∧
      (s1.ni_usb_sub ⟨k, hk⟩).usbdev = some (interface_to_usbdev st u) ∧
      ∀ j, j ≠ ⟨k, hk⟩ → s1.ni_usb_sub j = st.ni_usb_sub j := by
  refine ⟨_, probe_free u st ⟨k, hk⟩ h.1 (first_probed_scan h hk), ⟨h.1, ?_⟩, ?_, by simp,
    by simp, by simp [interface_to_usbdev], ?_⟩
  · intro i
    by_cases hik : i = ⟨k, hk⟩
    · subst hik
      simp
    · have hne : i.val ≠ k := fun hc => hik (Fin.ext hc)
      simp only [Function.update_noteq hik, h.2 i]
      by_cases hlt : i.val < k
      · have : i.val < k + 1 := by omega
        simp [hlt, this]
      · have : ¬ i.val < k + 1 := by omega
        simp [hlt, this]
  · simp [h.2]
  · intro j hj
    simp [Function.update_noteq hj]

theorem run_probe_calls (devs : Nat → usb_device) (intfs : Nat → usb_interface)
    (cdevs : Nat → comedi_device) (us : Nat → Nat) :
    ∀ k, k ≤ NUMNIUSB →
      ∃ s, run (probe_calls us k) (init_state devs intfs cdevs) = some s ∧ first_probed k s := by
  intro k
  induction k with
  | zero =>
    intro _
    exact ⟨_, rfl, first_probed_init devs intfs cdevs⟩
  | succ k ih =>
    intro hk
    obtain ⟨s, hs, hf⟩ := ih (by omega)
    obtain ⟨s1, hp, hf1, _⟩ := first_probed_probe (us k) hf (by omega)
    exact ⟨s1, run_probe_calls_succ us k _ s s1 0 hs hp, hf1⟩

/-! ## Semaphores -/

theorem events_of_append (st st1 : State) (evs : List Event)
    (h : st1.trace = st.trace ++ evs) : events_of st st1 = evs := by
  simp [events_of, h]

theorem step_sem_counts {c : Call} {s s1 : State} (h : step c s = some s1) :
    s1.start_stop_sem = s.start_stop_sem ∧
      ∀ j, (s1.ni_usb_sub j).sem = (s.ni_usb_sub j).sem ∨
        ((s.ni_usb_sub j).probed = 0 ∧ (s1.ni_usb_sub j).sem = 1) := by
  have hupd : ∀ (i : Fin NUMNIUSB) (v : ni_usb_sub),
      (v.sem = (s.ni_usb_sub i).sem ∨ ((s.ni_usb_sub i).probed = 0 ∧ v.sem = 1)) →
      ∀ j, (Function.update s.ni_usb_sub i v j).sem = (s.ni_usb_sub j).sem ∨
        ((s.ni_usb_sub j).probed = 0 ∧ (Function.update s.ni_usb_sub i v j).sem = 1) := by
    intro i v hv j
    by_cases hji : j = i
    · subst hji
      simpa using hv
    · rw [Function.update_noteq hji]
      exact Or.inl rfl
  cases c with
  | probe u =>
    simp only [step, Option.map_eq_some'] at h
    obtain ⟨⟨r, s2⟩, h, rfl⟩ := h
    have hg := probe_returns h
    cases hs : scan is_free s.ni_usb_sub with
    | none =>
      rw [probe_full u s hg hs] at h
      cases h
      exact ⟨rfl, fun j => Or.inl rfl⟩
    | some i =>
      rw [probe_free u s i hg hs] at h
      cases h
      have hi : (s.ni_usb_sub i).probed = 0 := by
        simpa [is_free] using ((scan_eq_some_iff _ _ _).mp hs).1
      exact ⟨rfl, hupd i _ (Or.inr ⟨hi, rfl⟩)⟩
  | disconnect u =>
    simp only [step] at h
    cases hd : (s.usb_interfaces u).intfdata with
    | none =>
      rw [disconnect_no_data u s hd] at h
      cases h
      exact ⟨rfl, fun j => Or.inl rfl⟩
    | some i =>
      by_cases hu : (s.ni_usb_sub i).usbdev = some (s.usb_interfaces u).usbdev
      · obtain ⟨hg, hl⟩ := disconnect_returns h i hd hu
        rw [disconnect_match u s i hd hu hg hl] at h
        cases h
        exact ⟨rfl, fun j => Or.inl rfl⟩
      · rw [disconnect_mismatch u s i hd hu] at h
        cases h
        exact ⟨rfl, fun j => Or.inl rfl⟩
  | attach d =>
    simp only [step, Option.map_eq_some'] at h
    obtain ⟨⟨r, s2⟩, h, rfl⟩ := h
    obtain ⟨hg, hl⟩ := attach_returns h
    cases hs : scan is_ready s.ni_usb_sub with
    | none =>
      rw [attach_none d s hg hs] at h
      cases h
      exact ⟨rfl, fun j => Or.inl rfl⟩
    | some i =>
      rw [attach_ready d s i hg (hl i hs) hs] at h
      cases h
      exact ⟨rfl, hupd i _ (Or.inl rfl)⟩
  | detach d =>
    simp only [step, Option.map_eq_some'] at h
    obtain ⟨⟨r, s2⟩, h, rfl⟩ := h
    cases d with
    | none =>
      rw [detach_null] at h
      cases h
      exact ⟨rfl, fun j => Or.inl rfl⟩
    | some d =>
      cases hp : (s.comedi_devices d).«private» with
      | none =>
        rw [detach_no_private d s hp] at h
        cases h
        exact ⟨rfl, fun j => Or.inl rfl⟩
      | some i =>
        rw [detach_private d s i hp (detach_returns h i hp)] at h
        cases h
        exact ⟨rfl, hupd i _ (Or.inl rfl)⟩

/-! ## The scenario of two devices -/

theorem disconnect_of_locks_free (intf : Nat) (st : State) (hg : st.start_stop_sem ≠ 0)
    (hl : ∀ i, (st.ni_usb_sub i).usbdev ≠ none → (st.ni_usb_sub i).sem ≠ 0) :
    ∃ st1, ni_usb_sub_disconnect intf st = some st1 ∧ st1.ni_usb_sub = st.ni_usb_sub ∧
      st1.start_stop_sem = st.start_stop_sem := by
  cases hd : (st.usb_interfaces intf).intfdata with
  | none => exact ⟨st, disconnect_no_data intf st hd, rfl, rfl⟩
  | some i =>
    by_cases hu : (st.ni_usb_sub i).usbdev = some (st.usb_interfaces intf).usbdev
    · exact ⟨_, disconnect_match intf st i hd hu hg (hl i (by simp [hu])), rfl, rfl⟩
    · exact ⟨st, disconnect_mismatch intf st i hd hu, rfl, rfl⟩

/-! ## The claims -/

/-- C1: from the table at module load, after every sequence of probe,
disconnect, attach and detach calls with arbitrary arguments, no slot is
attached without being probed; a call of attach, on any state, leaves the
attached flag of every slot that is not probed as it was; and when no comedi
device has a private pointer at module load, every sequence of calls runs to
its end, none of them blocking. -/
theorem attached_only_if_probed (devs : Nat → usb_device) (intfs : Nat → usb_interface)
    (cdevs : Nat → comedi_device) (calls : List Call) (st : State)
    (h : run calls (init_state devs intfs cdevs) = some st) :
    (∀ i, (st.ni_usb_sub i).attached ≠ 0 → (st.ni_usb_sub i).probed ≠ 0) ∧
      (∀ (s s1 : State) (dev : Nat) (r : Int), ni_usb_attach dev s = some (r, s1) →
        ∀ i, (s.ni_usb_sub i).probed = 0 →
          (s1.ni_usb_sub i).attached = (s.ni_usb_sub i).attached) ∧
      ((∀ d, (cdevs d).«private» = none) →
        ∀ calls2, ∃ st2, run calls2 (init_state devs intfs cdevs) = some st2) := by
  refine ⟨?_, ?_, ?_⟩
  · apply run_keeps_attached_probed calls _ st h
    intro i hi
    exact absurd rfl hi
  · intro s s1 dev r ha i hp
    rcases (attach_table ha i).2 with h2 | ⟨h2, _, _⟩
    · exact h2
    · exact absurd hp h2
  · intro hpriv calls2
    obtain ⟨st2, h2, _⟩ := run_quiet calls2 _ (quiet_init devs intfs cdevs hpriv)
    exact ⟨st2, h2⟩

/-- Witness of C1: the run `demo_calls` from the state at module load. -/
theorem attached_only_if_probed_witness :
    run demo_calls (init_state demo_devs demo_intfs demo_cdevs) = some (demo_after demo_calls) ∧
    ((∀ i, ((demo_after demo_calls).ni_usb_sub i).attached ≠ 0 →
        ((demo_after demo_calls).ni_usb_sub i).probed ≠ 0) ∧
      (∀ (s s1 : State) (dev : Nat) (r : Int), ni_usb_attach dev s = some (r, s1) →
        ∀ i, (s.ni_usb_sub i).probed = 0 →
          (s1.ni_usb_sub i).attached = (s.ni_usb_sub i).attached) ∧
      ((∀ d, (demo_cdevs d).«private» = none) →
        ∀ calls2, ∃ st2, run calls2 (init_state demo_devs demo_intfs demo_cdevs) = some st2)) :=
  ⟨rfl, attached_only_if_probed demo_devs demo_intfs demo_cdevs demo_calls
    (demo_after demo_calls) rfl⟩

/-- C2: with `start_stop_sem` free, probe returns; it returns `0` exactly when
some slot is not probed, and then the slot whose probed flag it sets is the
unprobed slot of smallest index (no other slot's probed flag changes); it
returns `-EMFILE` exactly when all `NUMNIUSB` slots are probed. -/
theorem probe_first_free (u : Nat) (st : State) (hg : st.start_stop_sem ≠ 0) :
    ∃ (r : Int) (st1 : State), ni_usb_sub_probe u st = some (r, st1) ∧
      (r = 0 ↔ ∃ i, (st.ni_usb_sub i).probed = 0) ∧
      (r = -EMFILE ↔ ∀ i, (st.ni_usb_sub i).probed ≠ 0) ∧
      (r = 0 → ∃ i, (st.ni_usb_sub i).probed = 0 ∧
        (∀ j, j < i → (st.ni_usb_sub j).probed ≠ 0) ∧
        (st1.ni_usb_sub i).probed = 1 ∧
        ∀ j, j ≠ i → (st1.ni_usb_sub j).probed = (st.ni_usb_sub j).probed) := by
  cases hs : scan is_free st.ni_usb_sub with
  | none =>
    have hall : ∀ i, (st.ni_usb_sub i).probed ≠ 0 := by
      intro i
      simpa [is_free] using (scan_eq_none_iff _ _).mp hs i
    refine ⟨_, _, probe_full u st hg hs, ?_, ?_, ?_⟩
    · constructor
      · intro h; simp [EMFILE] at h
      · rintro ⟨i, hi⟩; exact absurd hi (hall i)
    · exact ⟨fun _ => hall, fun _ => rfl⟩
    · intro h; simp [EMFILE] at h
  | some i =>
    obtain ⟨hi, hlt⟩ := (scan_eq_some_iff _ _ _).mp hs
    have hi0 : (st.ni_usb_sub i).probed = 0 := by simpa [is_free] using hi
    refine ⟨_, _, probe_free u st i hg hs, ?_, ?_, ?_⟩
    · exact ⟨fun _ => ⟨i, hi0⟩, fun _ => rfl⟩
    · constructor
      · intro h; simp [EMFILE] at h
      · intro h; exact absurd hi0 (h i)
    · intro _
      refine ⟨i, hi0, ?_, by simp, ?_⟩
      · intro j hj
        simpa [is_free] using hlt j hj
      · intro j hj
        simp [Function.update_noteq hj]

/-- Witness of C2: a probe on the state at module load. -/
theorem probe_first_free_witness :
    demo_init.start_stop_sem ≠ 0 ∧
    ∃ (r : Int) (st1 : State), ni_usb_sub_probe 5 demo_init = some (r, st1) ∧
      (r = 0 ↔ ∃ i, (demo_init.ni_usb_sub i).probed = 0) ∧
      (r = -EMFILE ↔ ∀ i, (demo_init.ni_usb_sub i).probed ≠ 0) ∧
      (r = 0 → ∃ i, (demo_init.ni_usb_sub i).probed = 0 ∧
        (∀ j, j < i → (demo_init.ni_usb_sub j).probed ≠ 0) ∧
        (st1.ni_usb_sub i).probed = 1 ∧
        ∀ j, j ≠ i → (st1.ni_usb_sub j).probed = (demo_init.ni_usb_sub j).probed) :=
  ⟨by decide, probe_first_free 5 demo_init (by decide)⟩

/-- C3: when no semaphore is held and some slot is probed and not attached,
attach returns `0`; the slot it claims is the probed, unattached slot of
smallest index; that slot ends with `attached = 1` and `comedidev = dev`, its
probed flag as before; every other slot is unchanged; and any attach on a
state with the same table claims the same slot. -/
theorem attach_first_ready (dev : Nat) (st : State) (hl : locks_free st)
    (h : ∃ i, (st.ni_usb_sub i).probed ≠ 0 ∧ (st.ni_usb_sub i).attached = 0) :
    ∃ (st1 : State) (k : Fin NUMNIUSB), ni_usb_attach dev st = some (0, st1) ∧
      (st.ni_usb_sub k).probed ≠ 0 ∧ (st.ni_usb_sub k).attached = 0 ∧
      (∀ j, j < k → ¬((st.ni_usb_sub j).probed ≠ 0 ∧ (st.ni_usb_sub j).attached = 0)) ∧
      (st1.ni_usb_sub k).attached = 1 ∧ (st1.ni_usb_sub k).comedidev = some dev ∧
      (st1.ni_usb_sub k).probed = (st.ni_usb_sub k).probed ∧
      (∀ j, j ≠ k → st1.ni_usb_sub j = st.ni_usb_sub j) ∧
      ∀ (dev2 : Nat) (st2 : State), locks_free st2 → st2.ni_usb_sub = st.ni_usb_sub →
        ∃ st3, ni_usb_attach dev2 st2 = some (0, st3) ∧
          (st3.ni_usb_sub k).attached = 1 ∧ (st3.ni_usb_sub k).comedidev = some dev2 ∧
          ∀ j, j ≠ k → st3.ni_usb_sub j = st2.ni_usb_sub j := by
  cases hs : scan is_ready st.ni_usb_sub with
  | none =>
    obtain ⟨i, hi1, hi2⟩ := h
    have := (scan_eq_none_iff _ _).mp hs i
    simp [is_ready, hi1, hi2] at this
  | some k =>
    obtain ⟨hk, hlt⟩ := (scan_eq_some_iff _ _ _).mp hs
    have hk2 : (st.ni_usb_sub k).probed ≠ 0 ∧ (st.ni_usb_sub k).attached = 0 := by
      simpa [is_ready] using hk
    refine ⟨_, k, attach_ready dev st k hl.1 (hl.2 k hk2.1) hs, hk2.1, hk2.2, ?_, by simp,
      by simp, by simp, ?_, ?_⟩
    · intro j hj hc
      have := hlt j hj
      simp [is_ready, hc.1, hc.2] at this
    · intro j hj
      simp [Function.update_noteq hj]
    · intro dev2 st2 hl2 htbl
      have hs2 : scan is_ready st2.ni_usb_sub = some k := by rw [htbl]; exact hs
      have hk3 : (st2.ni_usb_sub k).probed ≠ 0 := by rw [htbl]; exact hk2.1
      refine ⟨_, attach_ready dev2 st2 k hl2.1 (hl2.2 k hk3) hs2, by simp, by simp, ?_⟩
      intro j hj
      simp [Function.update_noteq hj]
/-- Witness of C3: two devices plugged in and the first one claimed; the next
attach has slot 1 to claim. -/
theorem attach_first_ready_witness :
    locks_free (demo_after [Call.probe 5, Call.probe 6, Call.attach 7]) ∧
    (∃ i, ((demo_after [Call.probe 5, Call.probe 6, Call.attach 7]).ni_usb_sub i).probed ≠ 0 ∧
      ((demo_after [Call.probe 5, Call.probe 6, Call.attach 7]).ni_usb_sub i).attached = 0) ∧
    ∃ (st1 : State) (k : Fin NUMNIUSB),
      ni_usb_attach 8 (demo_after [Call.probe 5, Call.probe 6, Call.attach 7]) = some (0, st1) ∧
      ((demo_after [Call.probe 5, Call.probe 6, Call.attach 7]).ni_usb_sub k).probed ≠ 0 ∧
      ((demo_after [Call.probe 5, Call.probe 6, Call.attach 7]).ni_usb_sub k).attached = 0 ∧
      (∀ j, j < k →
        ¬(((demo_after [Call.probe 5, Call.probe 6, Call.attach 7]).ni_usb_sub j).probed ≠ 0 ∧
          ((demo_after [Call.probe 5, Call.probe 6, Call.attach 7]).ni_usb_sub j).attached = 0)) ∧
      (st1.ni_usb_sub k).attached = 1 ∧ (st1.ni_usb_sub k).comedidev = some 8 ∧
      (st1.ni_usb_sub k).probed =
        ((demo_after [Call.probe 5, Call.probe 6, Call.attach 7]).ni_usb_sub k).probed ∧
      (∀ j, j ≠ k → st1.ni_usb_sub j =
        (demo_after [Call.probe 5, Call.probe 6, Call.attach 7]).ni_usb_sub j) ∧
      ∀ (dev2 : Nat) (st2 : State), locks_free st2 →
        st2.ni_usb_sub = (demo_after [Call.probe 5, Call.probe 6, Call.attach 7]).ni_usb_sub →
        ∃ st3, ni_usb_attach dev2 st2 = some (0, st3) ∧
          (st3.ni_usb_sub k).attached = 1 ∧ (st3.ni_usb_sub k).comedidev = some dev2 ∧
          ∀ j, j ≠ k → st3.ni_usb_sub j = st2.ni_usb_sub j :=
  ⟨by unfold locks_free; decide, ⟨1, by decide, by decide⟩,
    attach_first_ready 8 (demo_after [Call.probe 5, Call.probe 6, Call.attach 7])
      (by unfold locks_free; decide) ⟨1, by decide, by decide⟩⟩

/-- C4: with `start_stop_sem` free, attach returns `-ENODEV` if and only if no
slot is probed and not attached; when it returns `-ENODEV` the slot table is
as it was; and attach on the table at module load returns `-ENODEV`. -/
theorem attach_not_found (dev : Nat) (st : State) (hg : st.start_stop_sem ≠ 0) :
    ((∃ st1, ni_usb_attach dev st = some (-ENODEV, st1)) ↔
      ∀ i, ¬((st.ni_usb_sub i).probed ≠ 0 ∧ (st.ni_usb_sub i).attached = 0)) ∧
    (∀ st1, ni_usb_attach dev st = some (-ENODEV, st1) → st1.ni_usb_sub = st.ni_usb_sub) ∧
    ∀ (devs : Nat → usb_device) (intfs : Nat → usb_interface) (cdevs : Nat → comedi_device),
      ∃ st1, ni_usb_attach dev (init_state devs intfs cdevs) = some (-ENODEV, st1) ∧
        st1.ni_usb_sub = (init_state devs intfs cdevs).ni_usb_sub := by
  have key : ∀ s : State, ∀ st1, ni_usb_attach dev s = some (-ENODEV, st1) →
      scan is_ready s.ni_usb_sub = none ∧ st1.ni_usb_sub = s.ni_usb_sub := by
    intro s st1 h
    obtain ⟨hg1, hl1⟩ := attach_returns h
    cases hs : scan is_ready s.ni_usb_sub with
    | none =>
      rw [attach_none dev s hg1 hs] at h
      cases h
      exact ⟨rfl, rfl⟩
    | some i =>
      rw [attach_ready dev s i hg1 (hl1 i hs) hs] at h
      simp [ENODEV] at h
  refine ⟨⟨?_, ?_⟩, ?_, ?_⟩
  · rintro ⟨st1, h⟩ i hi
    have := (scan_eq_none_iff _ _).mp (key st st1 h).1 i
    simp [is_ready, hi.1, hi.2] at this
  · intro h
    have hs : scan is_ready st.ni_usb_sub = none := by
      rw [scan_eq_none_iff]
      intro j
      have := h j
      simp only [is_ready, Bool.and_eq_false_iff, bne_eq_false_iff_eq, beq_eq_false_iff_ne]
      by_cases hp : (st.ni_usb_sub j).probed = 0
      · exact Or.inl hp
      · right
        intro ha
        exact this ⟨hp, ha⟩
    exact ⟨_, attach_none dev st hg hs⟩
  · intro st1 h
    exact (key st st1 h).2
  · intro devs intfs cdevs
    have hs : scan is_ready (init_state devs intfs cdevs).ni_usb_sub = none := by
      rw [scan_eq_none_iff]
      intro j
      rfl
    exact ⟨_, attach_none dev _ (by simp [init_state]) hs, rfl⟩

/-- Witness of C4: attach when the only probed slot is already attached. -/
theorem attach_not_found_witness :
    (demo_after [Call.probe 5, Call.attach 7]).start_stop_sem ≠ 0 ∧
    (((∃ st1, ni_usb_attach 8 (demo_after [Call.probe 5, Call.attach 7])
        = some (-ENODEV, st1)) ↔
      ∀ i, ¬(((demo_after [Call.probe 5, Call.attach 7]).ni_usb_sub i).probed ≠ 0 ∧
        ((demo_after [Call.probe 5, Call.attach 7]).ni_usb_sub i).attached = 0)) ∧
    (∀ st1, ni_usb_attach 8 (demo_after [Call.probe 5, Call.attach 7]) = some (-ENODEV, st1) →
      st1.ni_usb_sub = (demo_after [Call.probe 5, Call.attach 7]).ni_usb_sub) ∧
    ∀ (devs : Nat → usb_device) (intfs : Nat → usb_interface) (cdevs : Nat → comedi_device),
      ∃ st1, ni_usb_attach 8 (init_state devs intfs cdevs) = some (-ENODEV, st1) ∧
        st1.ni_usb_sub = (init_state devs intfs cdevs).ni_usb_sub) :=
  ⟨by decide, attach_not_found 8 (demo_after [Call.probe 5, Call.attach 7]) (by decide)⟩

/-- C5: from the table at module load, `NUMNIUSB = 16` probe calls in a row all
return `0`, and the call number `k + 1` takes slot `k`: the slot was not probed
before the call, is probed after it with the device of the probed interface as
its handle, is published as the interface data, and no other slot changes.  One
more probe call returns `-EMFILE`; after it all slots are still probed, and the
slot table, the interfaces, the comedi devices and `start_stop_sem` are as
before the call. -/
theorem probe_fills_table (devs : Nat → usb_device) (intfs : Nat → usb_interface)
    (cdevs : Nat → comedi_device) (us : Nat → Nat) :
    (∀ (k : Nat) (hk : k < NUMNIUSB), ∃ s s1,
      run (probe_calls us k) (init_state devs intfs cdevs) = some s ∧
      ni_usb_sub_probe (us k) s = some (0, s1) ∧
      run (probe_calls us (k + 1)) (init_state devs intfs cdevs) = some s1 ∧
      (s.ni_usb_sub ⟨k, hk⟩).probed = 0 ∧ (s1.ni_usb_sub ⟨k, hk⟩).probed = 1 ∧
      (s1.usb_interfaces (us k)).intfdata = some ⟨k, hk⟩ ∧
      (s1.ni_usb_sub ⟨k, hk⟩).usbdev = some (interface_to_usbdev s (us k)) ∧
      ∀ j, j ≠ ⟨k, hk⟩ → s1.ni_usb_sub j = s.ni_usb_sub j) ∧
    ∃ s s1,
      run (probe_calls us NUMNIUSB) (init_state devs intfs cdevs) = some s ∧
      ni_usb_sub_probe (us NUMNIUSB) s = some (-EMFILE, s1) ∧
      (∀ i, (s.ni_usb_sub i).probed ≠ 0) ∧ (∀ i, (s1.ni_usb_sub i).probed ≠ 0) ∧
      s1.ni_usb_sub = s.ni_usb_sub ∧ s1.usb_interfaces = s.usb_interfaces ∧
      s1.comedi_devices = s.comedi_devices ∧ s1.start_stop_sem = s.start_stop_sem := by
  constructor
  · intro k hk
    obtain ⟨s, hs, hf⟩ := run_probe_calls devs intfs cdevs us k (by omega)
    obtain ⟨s1, hp, _, h1, h2, h3, h4, h5⟩ := first_probed_probe (us k) hf hk
    exact ⟨s, s1, hs, hp, run_probe_calls_succ us k _ s s1 0 hs hp, h1, h2, h3, h4, h5⟩
  · obtain ⟨s, hs, hf⟩ := run_probe_calls devs intfs cdevs us NUMNIUSB (le_refl _)
    have hall : ∀ i, (s.ni_usb_sub i).probed ≠ 0 := by
      intro i
      simp [hf.2 i, i.isLt]
    exact ⟨s, _, hs, probe_full (us NUMNIUSB) s hf.1 (first_probed_full hf), hall, hall, rfl,
      rfl, rfl, rfl⟩

/-- C6, the code at a failing input: device 5 is plugged in through interface 5
and takes slot 0; the disconnect callback for interface 5 finds slot 0 in the
interface data with the matching handle, calls the teardown hook and takes and
releases both semaphores, and slot 0 is still probed with its handle stored.
The same with the slot claimed by comedi device 7 in between: slot 0 stays
probed and attached, its back-reference still set. -/
theorem disconnect_leaves_slot :
    run [Call.probe 5] demo_init = some (demo_after [Call.probe 5]) ∧
    usb_get_intfdata (demo_after [Call.probe 5]) 5 = some 0 ∧
    ((demo_after [Call.probe 5]).ni_usb_sub 0).usbdev
      = some (interface_to_usbdev (demo_after [Call.probe 5]) 5) ∧
    ((demo_after [Call.probe 5]).ni_usb_sub 0).probed = 1 ∧
    (ni_usb_sub_disconnect 5 (demo_after [Call.probe 5])).map
        (fun s => ((s.ni_usb_sub 0).probed, (s.ni_usb_sub 0).usbdev,
          (s.ni_usb_sub 0).attached, (s.ni_usb_sub 0).comedidev, s.trace.drop 2))
      = some (1, some 5, 0, none,
          [Event.comedi_usb_auto_unconfig 5, Event.down SemRef.start_stop_sem,
            Event.down (SemRef.sem 0), Event.up (SemRef.sem 0),
            Event.up SemRef.start_stop_sem]) ∧
    run [Call.probe 5, Call.attach 7] demo_init
      = some (demo_after [Call.probe 5, Call.attach 7]) ∧
    (ni_usb_sub_disconnect 5 (demo_after [Call.probe 5, Call.attach 7])).map
        (fun s => ((s.ni_usb_sub 0).probed, (s.ni_usb_sub 0).usbdev,
          (s.ni_usb_sub 0).attached, (s.ni_usb_sub 0).comedidev, s.trace.drop 6))
      = some (1, some 5, 1, some 7,
          [Event.comedi_usb_auto_unconfig 5, Event.down SemRef.start_stop_sem,
            Event.down (SemRef.sem 0), Event.up (SemRef.sem 0),
            Event.up SemRef.start_stop_sem]) :=
  ⟨rfl, by decide, by decide, by decide, by decide, rfl, by decide⟩

/-- C7, the code at a failing input: slot 0 is probed and not attached; attach
of comedi device 7 returns `0` and claims slot 0, leaving the private pointer
of device 7 `NULL`; the following detach of device 7 returns `-EFAULT` and slot
0 stays attached with its back-reference; the next attach, by device 8,
returns `-ENODEV`. -/
theorem detach_after_attach :
    run [Call.probe 5] demo_init = some (demo_after [Call.probe 5]) ∧
    ((demo_after [Call.probe 5]).ni_usb_sub 0).probed = 1 ∧
    ((demo_after [Call.probe 5]).ni_usb_sub 0).attached = 0 ∧
    (ni_usb_attach 7 (demo_after [Call.probe 5])).map
        (fun x => (x.1, (x.2.ni_usb_sub 0).attached, (x.2.ni_usb_sub 0).comedidev,
          (x.2.comedi_devices 7).«private»))
      = some (0, 1, some 7, none) ∧
    run [Call.probe 5, Call.attach 7] demo_init
      = some (demo_after [Call.probe 5, Call.attach 7]) ∧
    (ni_usb_detach (some 7) (demo_after [Call.probe 5, Call.attach 7])).map
        (fun x => (x.1, (x.2.ni_usb_sub 0).probed, (x.2.ni_usb_sub 0).attached,
          (x.2.ni_usb_sub 0).comedidev))
      = some (-EFAULT, 1, 1, some 7) ∧
    run [Call.probe 5, Call.attach 7, Call.detach (some 7)] demo_init
      = some (demo_after [Call.probe 5, Call.attach 7, Call.detach (some 7)]) ∧
    (ni_usb_attach 8 (demo_after [Call.probe 5, Call.attach 7, Call.detach (some 7)])).map
        Prod.fst = some (-ENODEV) :=
  ⟨rfl, by decide, by decide, by decide, rfl, by decide, rfl, by decide⟩

/-- C8, the code at a failing input: sixteen devices are plugged in through the
interfaces 0 to 15 and fill the table; the disconnect callback for interface 3
finds slot 3 with the matching handle and returns; slot 3 is still probed, and
the next probe, for interface 20, returns `-EMFILE`. -/
theorem probe_after_disconnect :
    run (probe_calls id NUMNIUSB) demo_init = some (demo_after (probe_calls id NUMNIUSB)) ∧
    (∀ i, ((demo_after (probe_calls id NUMNIUSB)).ni_usb_sub i).probed ≠ 0) ∧
    usb_get_intfdata (demo_after (probe_calls id NUMNIUSB)) 3 = some 3 ∧
    ((demo_after (probe_calls id NUMNIUSB)).ni_usb_sub 3).usbdev
      = some (interface_to_usbdev (demo_after (probe_calls id NUMNIUSB)) 3) ∧
    (ni_usb_sub_probe 20 (demo_after (probe_calls id NUMNIUSB))).map Prod.fst
      = some (-EMFILE) ∧
    (ni_usb_sub_disconnect 3 (demo_after (probe_calls id NUMNIUSB))).map
        (fun s => ((s.ni_usb_sub 3).probed, s.trace.drop 32))
      = some (1, [Event.comedi_usb_auto_unconfig 3, Event.down SemRef.start_stop_sem,
            Event.down (SemRef.sem 3), Event.up (SemRef.sem 3),
            Event.up SemRef.start_stop_sem]) ∧
    ((ni_usb_sub_disconnect 3 (demo_after (probe_calls id NUMNIUSB))).bind
        (ni_usb_sub_probe 20)).map Prod.fst = some (-EMFILE) :=
  ⟨rfl, by decide, by decide, by decide, by decide, by decide, by decide⟩

/-- C9: no semaphore is held; slot `i` is probed and attached, it is the slot
the interface data of `intf` points to, and its handle is the device of
`intf`; no other slot is probed and unattached.  Then the disconnect callback
for `intf` returns, and the attach that follows returns `-ENODEV`. -/
theorem attach_after_disconnect (intf dev : Nat) (st : State) (i : Fin NUMNIUSB)
    (hl : locks_free st)
    (hd : usb_get_intfdata st intf = some i)
    (hu : (st.ni_usb_sub i).usbdev = some (interface_to_usbdev st intf))
    (hp : (st.ni_usb_sub i).probed ≠ 0) (ha : (st.ni_usb_sub i).attached ≠ 0)
    (hother : ∀ j, j ≠ i → ¬((st.ni_usb_sub j).probed ≠ 0 ∧ (st.ni_usb_sub j).attached = 0)) :
    ∃ st1 st2, ni_usb_sub_disconnect intf st = some st1 ∧
      ni_usb_attach dev st1 = some (-ENODEV, st2) := by
  have h1 := disconnect_match intf st i hd hu hl.1 (hl.2 i hp)
  refine ⟨_, _, h1, attach_none dev _ hl.1 ?_⟩
  rw [scan_eq_none_iff]
  intro j
  by_cases hji : j = i
  · subst hji
    simp [is_ready, ha]
  · have := hother j hji
    simp only [is_ready, Bool.and_eq_false_iff, bne_eq_false_iff_eq, beq_eq_false_iff_ne]
    by_cases hpj : (st.ni_usb_sub j).probed = 0
    · exact Or.inl hpj
    · exact Or.inr (fun haj => this ⟨hpj, haj⟩)

/-- Witness of C9: device 5 plugged in through interface 5, claimed by comedi
device 7, then unplugged; comedi device 8 asks next. -/
theorem attach_after_disconnect_witness :
    locks_free (demo_after [Call.probe 5, Call.attach 7]) ∧
    usb_get_intfdata (demo_after [Call.probe 5, Call.attach 7]) 5 = some 0 ∧
    ((demo_after [Call.probe 5, Call.attach 7]).ni_usb_sub 0).usbdev
      = some (interface_to_usbdev (demo_after [Call.probe 5, Call.attach 7]) 5) ∧
    ((demo_after [Call.probe 5, Call.attach 7]).ni_usb_sub 0).probed ≠ 0 ∧
    ((demo_after [Call.probe 5, Call.attach 7]).ni_usb_sub 0).attached ≠ 0 ∧
    ∃ st1 st2, ni_usb_sub_disconnect 5 (demo_after [Call.probe 5, Call.attach 7]) = some st1 ∧
      ni_usb_attach 8 st1 = some (-ENODEV, st2) :=
  ⟨by unfold locks_free; decide, by decide, by decide, by decide, by decide,
    attach_after_disconnect 5 8 (demo_after [Call.probe 5, Call.attach 7]) 0
      (by unfold locks_free; decide) (by decide) (by decide) (by decide) (by decide)
      (by decide)⟩

/-- C10: for a non-null comedi device `d`, when the semaphore of the slot its
private pointer refers to (if any) can be taken, detach returns, a second
detach returns as well, and the state after the second call is the state after
the first: the same slot table and the same private pointer of `d`. -/
theorem detach_twice (d : Nat) (st : State)
    (hl : ∀ i, (st.comedi_devices d).«private» = some i → (st.ni_usb_sub i).sem ≠ 0) :
    ∃ (r1 r2 : Int) (st1 st2 : State),
      ni_usb_detach (some d) st = some (r1, st1) ∧
      ni_usb_detach (some d) st1 = some (r2, st2) ∧
      st2 = st1 ∧ st2.ni_usb_sub = st1.ni_usb_sub ∧
      (st2.comedi_devices d).«private» = (st1.comedi_devices d).«private» := by
  cases hp : (st.comedi_devices d).«private» with
  | none =>
    exact ⟨_, _, _, _, detach_no_private d st hp, detach_no_private d st hp, rfl, rfl, rfl⟩
  | some i =>
    refine ⟨_, _, _, _, detach_private d st i hp (hl i hp), detach_no_private d _ ?_, rfl,
      rfl, rfl⟩
    simp

/-- Witness of C10: comedi device 7 holds slot 0, in the state after interface
5 was probed and device 7 attached, with the private pointer of device 7 set
to slot 0. -/
theorem detach_twice_witness :
    (∀ i, ((set_private 7 (some 0) (demo_after [Call.probe 5, Call.attach 7])).comedi_devices
        7).«private» = some i →
      ((set_private 7 (some 0) (demo_after [Call.probe 5, Call.attach 7])).ni_usb_sub i).sem
        ≠ 0) ∧
    ∃ (r1 r2 : Int) (st1 st2 : State),
      ni_usb_detach (some 7) (set_private 7 (some 0) (demo_after [Call.probe 5, Call.attach 7]))
        = some (r1, st1) ∧
      ni_usb_detach (some 7) st1 = some (r2, st2) ∧
      st2 = st1 ∧ st2.ni_usb_sub = st1.ni_usb_sub ∧
      (st2.comedi_devices 7).«private» = (st1.comedi_devices 7).«private» :=
  ⟨by decide, detach_twice 7 _ (by decide)⟩

/-- C11, as the code has it: detach on a non-null comedi device whose private
pointer is `NULL` returns `-EFAULT`, which is not `0`, and changes nothing, the
trace included. -/
theorem detach_not_attached (d : Nat) (st : State)
    (hp : (st.comedi_devices d).«private» = none) :
    ni_usb_detach (some d) st = some (-EFAULT, st) ∧ -EFAULT ≠ (0 : Int) :=
  ⟨detach_no_private d st hp, by decide⟩

/-- Witness of C11: comedi device 7 at module load. -/
theorem detach_not_attached_witness :
    (demo_init.comedi_devices 7).«private» = none ∧
    ni_usb_detach (some 7) demo_init = some (-EFAULT, demo_init) ∧ -EFAULT ≠ (0 : Int) :=
  ⟨by decide, detach_not_attached 7 demo_init (by decide)⟩

/-- C11 fails on the code: comedi device 7 holds slot 0 (private pointer set);
the first detach returns `0` and clears the pointer, the second detach, on a
device that is attached to no slot, returns `-EFAULT` and not `0`; so does a
detach of device 7 at module load. -/
theorem detach_not_attached_counterexample :
    (ni_usb_detach (some 7)
        (set_private 7 (some 0) (demo_after [Call.probe 5, Call.attach 7]))).map
      (fun x => (x.1, (x.2.comedi_devices 7).«private»)) = some (0, none) ∧
    ((ni_usb_detach (some 7)
        (set_private 7 (some 0) (demo_after [Call.probe 5, Call.attach 7]))).bind
      (fun x => (ni_usb_detach (some 7) x.2).map Prod.fst)) = some (-14) ∧
    ¬ ((ni_usb_detach (some 7)
        (set_private 7 (some 0) (demo_after [Call.probe 5, Call.attach 7]))).bind
      (fun x => (ni_usb_detach (some 7) x.2).map Prod.fst)) = some 0 ∧
    (demo_init.comedi_devices 7).«private» = none ∧
    ¬ (ni_usb_detach (some 7) demo_init).map Prod.fst = some 0 :=
  ⟨by decide, by decide, by decide, by decide, by decide⟩

/-- C12: for a comedi device `d` whose private pointer refers to slot `i`, with
the semaphore of slot `i` free, detach returns `0`; after it slot `i` has
`attached = 0` and `comedidev = NULL` and is otherwise the slot it was (probed
flag, device handle, buffers and urbs and all other fields), every other slot
is unchanged, the private pointer of `d` is `NULL`, every other comedi device,
the USB devices, the interfaces and `start_stop_sem` are unchanged. -/
theorem detach_frame (d : Nat) (st : State) (i : Fin NUMNIUSB)
    (hp : (st.comedi_devices d).«private» = some i) (hl : (st.ni_usb_sub i).sem ≠ 0) :
    ∃ st1, ni_usb_detach (some d) st = some (0, st1) ∧
      st1.ni_usb_sub i = { (st.ni_usb_sub i) with attached := 0, comedidev := none } ∧
      (st1.ni_usb_sub i).probed = (st.ni_usb_sub i).probed ∧
      (st1.ni_usb_sub i).usbdev = (st.ni_usb_sub i).usbdev ∧
      (∀ j, j ≠ i → st1.ni_usb_sub j = st.ni_usb_sub j) ∧
      (st1.comedi_devices d).«private» = none ∧
      (st1.comedi_devices d).minor = (st.comedi_devices d).minor ∧
      (∀ e, e ≠ d → st1.comedi_devices e = st.comedi_devices e) ∧
      st1.usb_devices = st.usb_devices ∧ st1.usb_interfaces = st.usb_interfaces ∧
      st1.start_stop_sem = st.start_stop_sem := by
  refine ⟨_, detach_private d st i hp hl, by simp, by simp, by simp, ?_, by simp, by simp, ?_,
    rfl, rfl, rfl⟩
  · intro j hj
    simp [Function.update_noteq hj]
  · intro e he
    simp [Function.update_noteq he]

/-- Witness of C12: comedi device 7 holds slot 0, in the state after interface
5 was probed and device 7 attached, with the private pointer of device 7 set
to slot 0. -/
theorem detach_frame_witness :
    ((set_private 7 (some 0) (demo_after [Call.probe 5, Call.attach 7])).comedi_devices
      7).«private» = some 0 ∧
    ((set_private 7 (some 0) (demo_after [Call.probe 5, Call.attach 7])).ni_usb_sub 0).sem ≠ 0 ∧
    ((set_private 7 (some 0) (demo_after [Call.probe 5, Call.attach 7])).ni_usb_sub 0).attached
      = 1 ∧
    ∃ st1, ni_usb_detach (some 7)
        (set_private 7 (some 0) (demo_after [Call.probe 5, Call.attach 7])) = some (0, st1) ∧
      (st1.ni_usb_sub 0).attached = 0 ∧ (st1.ni_usb_sub 0).comedidev = none ∧
      (st1.ni_usb_sub 0).probed = 1 ∧ (st1.comedi_devices 7).«private» = none := by
  refine ⟨by decide, by decide, by decide, ?_⟩
  obtain ⟨st1, h, h1, h2, _, _, h3, _⟩ :=
    detach_frame 7 (set_private 7 (some 0) (demo_after [Call.probe 5, Call.attach 7])) 0
      (by decide) (by decide)
  refine ⟨st1, h, by rw [h1], by rw [h1], ?_, h3⟩
  rw [h2]
  decide

/-- C13: a disconnect callback for an interface whose data points to slot `i`
while the handle stored in slot `i` is not the device of the interface returns
with the state it was called in: the slot table is unchanged, and the trace is
unchanged, so `comedi_usb_auto_unconfig` was not called and no semaphore was
taken.  It returns whatever the semaphore counts are. -/
theorem disconnect_wrong_handle (intf : Nat) (st : State) (i : Fin NUMNIUSB)
    (hd : usb_get_intfdata st intf = some i)
    (hu : (st.ni_usb_sub i).usbdev ≠ some (interface_to_usbdev st intf)) :
    ∃ st1, ni_usb_sub_disconnect intf st = some st1 ∧ st1 = st ∧
      st1.ni_usb_sub = st.ni_usb_sub ∧ st1.trace = st.trace ∧
      st1.start_stop_sem = st.start_stop_sem ∧
      (∀ e, e ∈ st1.trace.drop st.trace.length →
        e ≠ Event.comedi_usb_auto_unconfig (interface_to_usbdev st intf) ∧
        ∀ s, e ≠ Event.down s) :=
  ⟨st, disconnect_mismatch intf st i hd hu, rfl, rfl, rfl, rfl, by simp⟩

/-- Witness of C13: interface 9 of device 9 carries a pointer to slot 0, which
holds device 5. -/
theorem disconnect_wrong_handle_witness :
    usb_get_intfdata (usb_set_intfdata 9 (some 0) (demo_after [Call.probe 5])) 9 = some 0 ∧
    ((usb_set_intfdata 9 (some 0) (demo_after [Call.probe 5])).ni_usb_sub 0).usbdev
      ≠ some (interface_to_usbdev (usb_set_intfdata 9 (some 0) (demo_after [Call.probe 5])) 9) ∧
    ∃ st1, ni_usb_sub_disconnect 9 (usb_set_intfdata 9 (some 0) (demo_after [Call.probe 5]))
        = some st1 ∧
      st1 = usb_set_intfdata 9 (some 0) (demo_after [Call.probe 5]) ∧
      st1.ni_usb_sub = (usb_set_intfdata 9 (some 0) (demo_after [Call.probe 5])).ni_usb_sub ∧
      st1.trace = (usb_set_intfdata 9 (some 0) (demo_after [Call.probe 5])).trace ∧
      st1.start_stop_sem
        = (usb_set_intfdata 9 (some 0) (demo_after [Call.probe 5])).start_stop_sem ∧
      (∀ e, e ∈ st1.trace.drop
          (usb_set_intfdata 9 (some 0) (demo_after [Call.probe 5])).trace.length →
        e ≠ Event.comedi_usb_auto_unconfig
            (interface_to_usbdev (usb_set_intfdata 9 (some 0) (demo_after [Call.probe 5])) 9) ∧
        ∀ s, e ≠ Event.down s) :=
  ⟨by decide, by decide,
    disconnect_wrong_handle 9 (usb_set_intfdata 9 (some 0) (demo_after [Call.probe 5])) 0
      (by decide) (by decide)⟩

/-- C16: when probe returns `0`, the slot `i` it selected is the unprobed slot
of smallest index; after the call slot `i` has `probed = 1`, the device of the
probed interface as `usbdev`, the interface as `interface`, its
`bInterfaceNumber` as `ifnum`, and `high_speed` set exactly when the speed of
that device is `USB_SPEED_HIGH`; the interface data of the probed interface is
the pointer to slot `i`; the attached flag of slot `i` is as before, and every
other slot is unchanged in every field. -/
theorem probe_frame (u : Nat) (st st1 : State)
    (h : ni_usb_sub_probe u st = some (0, st1)) :
    ∃ i : Fin NUMNIUSB,
      (st.ni_usb_sub i).probed = 0 ∧ (∀ j, j < i → (st.ni_usb_sub j).probed ≠ 0) ∧
      (st1.ni_usb_sub i).probed = 1 ∧
      (st1.ni_usb_sub i).usbdev = some (interface_to_usbdev st u) ∧
      (st1.ni_usb_sub i).interface = some u ∧
      (st1.ni_usb_sub i).ifnum = (st.usb_interfaces u).bInterfaceNumber ∧
      ((st1.ni_usb_sub i).high_speed ≠ 0 ↔
        (st.usb_devices (interface_to_usbdev st u)).speed = USB_SPEED_HIGH) ∧
      usb_get_intfdata st1 u = some i ∧
      (st1.ni_usb_sub i).attached = (st.ni_usb_sub i).attached ∧
      (st1.ni_usb_sub i).comedidev = (st.ni_usb_sub i).comedidev ∧
      (∀ j, j ≠ i → st1.ni_usb_sub j = st.ni_usb_sub j) := by
  have hg := probe_returns h
  cases hs : scan is_free st.ni_usb_sub with
  | none =>
    rw [probe_full u st hg hs] at h
    simp [EMFILE] at h
  | some i =>
    rw [probe_free u st i hg hs] at h
    simp only [Option.some.injEq, Prod.mk.injEq, true_and] at h
    subst h
    obtain ⟨hi, hlt⟩ := (scan_eq_some_iff _ _ _).mp hs
    refine ⟨i, by simpa [is_free] using hi, ?_, by simp, by simp [interface_to_usbdev],
      by simp, by simp, ?_, by simp [usb_get_intfdata], by simp, by simp, ?_⟩
    · intro j hj
      simpa [is_free] using hlt j hj
    · by_cases hsp : (st.usb_devices (st.usb_interfaces u).usbdev).speed = USB_SPEED_HIGH
      · simp [interface_to_usbdev, hsp]
      · simp [interface_to_usbdev, hsp]
    · intro j hj
      simp [Function.update_noteq hj]

/-- Witness of C16: interface 6 is probed when slot 0 is taken; it gets slot 1. -/
theorem probe_frame_witness :
    ni_usb_sub_probe 6 (demo_after [Call.probe 5, Call.attach 7])
      = some (0, demo_after [Call.probe 5, Call.attach 7, Call.probe 6]) ∧
    ((demo_after [Call.probe 5, Call.attach 7, Call.probe 6]).ni_usb_sub 1).usbdev = some 6 ∧
    ∃ i : Fin NUMNIUSB,
      ((demo_after [Call.probe 5, Call.attach 7]).ni_usb_sub i).probed = 0 ∧
      ((demo_after [Call.probe 5, Call.attach 7, Call.probe 6]).ni_usb_sub i).probed = 1 ∧
      usb_get_intfdata (demo_after [Call.probe 5, Call.attach 7, Call.probe 6]) 6 = some i ∧
      (∀ j, j ≠ i → (demo_after [Call.probe 5, Call.attach 7, Call.probe 6]).ni_usb_sub j
        = (demo_after [Call.probe 5, Call.attach 7]).ni_usb_sub j) := by
  refine ⟨rfl, by decide, ?_⟩
  obtain ⟨i, h1, _, h3, _, _, _, _, h8, _, _, h11⟩ :=
    probe_frame 6 (demo_after [Call.probe 5, Call.attach 7])
      (demo_after [Call.probe 5, Call.attach 7, Call.probe 6]) rfl
  exact ⟨i, h1, h3, h8, h11⟩

/-- C19: whenever attach returns, with `0` or with `-ENODEV`, the private
pointer of its comedi device is `NULL`; a detach of the same device issued next
returns `-EFAULT` and changes nothing; so after an attach that returned `0`
the slot it claimed (probed and unattached before, `attached = 1` and
`comedidev = dev` after) is still attached after that detach. -/
theorem attach_leaves_private_null (dev : Nat) (st st1 : State) (r : Int)
    (h : ni_usb_attach dev st = some (r, st1)) :
    (r = 0 ∨ r = -ENODEV) ∧
    (st1.comedi_devices dev).«private» = none ∧
    ni_usb_detach (some dev) st1 = some (-EFAULT, st1) ∧
    (r = 0 → ∃ k : Fin NUMNIUSB,
      (st.ni_usb_sub k).probed ≠ 0 ∧ (st.ni_usb_sub k).attached = 0 ∧
      (st1.ni_usb_sub k).attached = 1 ∧ (st1.ni_usb_sub k).comedidev = some dev ∧
      ∃ st2, ni_usb_detach (some dev) st1 = some (-EFAULT, st2) ∧
        (st2.ni_usb_sub k).attached = 1 ∧ (st2.ni_usb_sub k).comedidev = some dev) := by
  obtain ⟨hg, hl⟩ := attach_returns h
  cases hs : scan is_ready st.ni_usb_sub with
  | none =>
    rw [attach_none dev st hg hs] at h
    simp only [Option.some.injEq, Prod.mk.injEq] at h
    obtain ⟨rfl, rfl⟩ := h
    refine ⟨Or.inr rfl, by simp, detach_no_private dev _ (by simp), ?_⟩
    intro h0
    simp [ENODEV] at h0
  | some k =>
    rw [attach_ready dev st k hg (hl k hs) hs] at h
    simp only [Option.some.injEq, Prod.mk.injEq] at h
    obtain ⟨rfl, rfl⟩ := h
    have hk := ((scan_eq_some_iff _ _ _).mp hs).1
    have hk2 : (st.ni_usb_sub k).probed ≠ 0 ∧ (st.ni_usb_sub k).attached = 0 := by
      simpa [is_ready] using hk
    refine ⟨Or.inl rfl, by simp, detach_no_private dev _ (by simp), ?_⟩
    intro _
    exact ⟨k, hk2.1, hk2.2, by simp, by simp, _, detach_no_private dev _ (by simp), by simp,
      by simp⟩

/-- Witness of C19: comedi device 7 claims slot 0 after interface 5 was probed. -/
theorem attach_leaves_private_null_witness :
    ni_usb_attach 7 (demo_after [Call.probe 5])
      = some (0, demo_after [Call.probe 5, Call.attach 7]) ∧
    ((demo_after [Call.probe 5, Call.attach 7]).comedi_devices 7).«private» = none ∧
    ni_usb_detach (some 7) (demo_after [Call.probe 5, Call.attach 7])
      = some (-EFAULT, demo_after [Call.probe 5, Call.attach 7]) ∧
    ((demo_after [Call.probe 5, Call.attach 7]).ni_usb_sub 0).attached = 1 :=
  ⟨rfl,
    (attach_leaves_private_null 7 (demo_after [Call.probe 5])
      (demo_after [Call.probe 5, Call.attach 7]) 0 rfl).2.1,
    (attach_leaves_private_null 7 (demo_after [Call.probe 5])
      (demo_after [Call.probe 5, Call.attach 7]) 0 rfl).2.2.1,
    by decide⟩

/-- C17: the semaphore events of every call that returns.  Probe takes and
releases `start_stop_sem` only.  Attach and disconnect either take no slot
`sem` or take `start_stop_sem` first and the `sem` of one slot while holding
it, releasing in the reverse order.  Detach takes at most the `sem` of one
slot.  In every case the replay of the events finds no `down` on a semaphore
the call already holds and no `down` on `start_stop_sem` while a slot `sem` is
held; for probe, attach and disconnect it also finds every `down` on a slot
`sem` made while `start_stop_sem` is held. -/
theorem lock_order (st : State) :
    (∀ u r st1, ni_usb_sub_probe u st = some (r, st1) →
      events_of st st1 = [Event.down SemRef.start_stop_sem, Event.up SemRef.start_stop_sem] ∧
      lock_order_ok true [] (events_of st st1) = true) ∧
    (∀ d r st1, ni_usb_attach d st = some (r, st1) →
      (events_of st st1 = [Event.down SemRef.start_stop_sem, Event.up SemRef.start_stop_sem] ∨
        ∃ k, events_of st st1 =
          [Event.down SemRef.start_stop_sem, Event.down (SemRef.sem k),
            Event.up (SemRef.sem k), Event.up SemRef.start_stop_sem]) ∧
      lock_order_ok true [] (events_of st st1) = true) ∧
    (∀ intf st1, ni_usb_sub_disconnect intf st = some st1 →
      (events_of st st1 = [] ∨
        ∃ k, events_of st st1 =
          [Event.comedi_usb_auto_unconfig (interface_to_usbdev st intf),
            Event.down SemRef.start_stop_sem, Event.down (SemRef.sem k),
            Event.up (SemRef.sem k), Event.up SemRef.start_stop_sem]) ∧
      lock_order_ok true [] (events_of st st1) = true) ∧
    (∀ d r st1, ni_usb_detach d st = some (r, st1) →
      (events_of st st1 = [] ∨
        ∃ k, events_of st st1 = [Event.down (SemRef.sem k), Event.up (SemRef.sem k)]) ∧
      lock_order_ok false [] (events_of st st1) = true) := by
  refine ⟨?_, ?_, ?_, ?_⟩
  · intro u r st1 h
    have hg := probe_returns h
    have he : events_of st st1
        = [Event.down SemRef.start_stop_sem, Event.up SemRef.start_stop_sem] := by
      cases hs : scan is_free st.ni_usb_sub with
      | none =>
        rw [probe_full u st hg hs] at h
        cases h
        exact events_of_append _ _ _ rfl
      | some i =>
        rw [probe_free u st i hg hs] at h
        cases h
        exact events_of_append _ _ _ rfl
    rw [he]
    exact ⟨rfl, by decide⟩
  · intro d r st1 h
    obtain ⟨hg, hl⟩ := attach_returns h
    cases hs : scan is_ready st.ni_usb_sub with
    | none =>
      rw [attach_none d st hg hs] at h
      cases h
      rw [events_of_append _ _ _ rfl]
      exact ⟨Or.inl rfl, by decide⟩
    | some k =>
      rw [attach_ready d st k hg (hl k hs) hs] at h
      cases h
      rw [events_of_append _ _ _ rfl]
      exact ⟨Or.inr ⟨k, rfl⟩, by simp [lock_order_ok, is_local]⟩
  · intro intf st1 h
    cases hd : (st.usb_interfaces intf).intfdata with
    | none =>
      rw [disconnect_no_data intf st hd] at h
      cases h
      rw [events_of_append _ _ [] (by simp)]
      exact ⟨Or.inl rfl, rfl⟩
    | some i =>
      by_cases hu : (st.ni_usb_sub i).usbdev = some (st.usb_interfaces intf).usbdev
      · obtain ⟨hg, hl⟩ := disconnect_returns h i hd hu
        rw [disconnect_match intf st i hd hu hg hl] at h
        cases h
        rw [events_of_append _ _ _ rfl]
        exact ⟨Or.inr ⟨i, rfl⟩, by simp [lock_order_ok, is_local]⟩
      · rw [disconnect_mismatch intf st i hd hu] at h
        cases h
        rw [events_of_append _ _ [] (by simp)]
        exact ⟨Or.inl rfl, rfl⟩
  · intro d r st1 h
    cases d with
    | none =>
      rw [detach_null] at h
      cases h
      rw [events_of_append _ _ [] (by simp)]
      exact ⟨Or.inl rfl, rfl⟩
    | some d =>
      cases hp : (st.comedi_devices d).«private» with
      | none =>
        rw [detach_no_private d st hp] at h
        cases h
        rw [events_of_append _ _ [] (by simp)]
        exact ⟨Or.inl rfl, rfl⟩
      | some i =>
        rw [detach_private d st i hp (detach_returns h i hp)] at h
        cases h
        rw [events_of_append _ _ _ rfl]
        exact ⟨Or.inr ⟨i, rfl⟩, by simp [lock_order_ok, is_local]⟩

/-- Witness of C17: the attach of comedi device 7 after interface 5 was probed
takes `start_stop_sem`, then the `sem` of slot 0, and releases them in the
reverse order. -/
theorem lock_order_witness :
    ni_usb_attach 7 (demo_after [Call.probe 5])
      = some (0, demo_after [Call.probe 5, Call.attach 7]) ∧
    events_of (demo_after [Call.probe 5]) (demo_after [Call.probe 5, Call.attach 7])
      = [Event.down SemRef.start_stop_sem, Event.down (SemRef.sem 0),
          Event.up (SemRef.sem 0), Event.up SemRef.start_stop_sem] ∧
    lock_order_ok true []
      (events_of (demo_after [Call.probe 5]) (demo_after [Call.probe 5, Call.attach 7]))
      = true :=
  ⟨rfl, by decide,
    ((lock_order (demo_after [Call.probe 5])).2.1 7 0
      (demo_after [Call.probe 5, Call.attach 7]) rfl).2⟩

/-- C18: started with all semaphores free, each of the four entry points
returns, whatever its arguments and whichever return path it takes (probe with
`0` or `-EMFILE`, attach with `0` or `-ENODEV`, detach with `0` or `-EFAULT`,
also for a `NULL` device, disconnect also on its null-pointer and
wrong-handle paths), and all semaphores are free again when it has returned.
And from any state at all, a call that returns leaves the count of
`start_stop_sem` as it found it, and the count of every slot `sem` too, but
for the slot a successful probe takes, whose `sem` it initialises to `1`. -/
theorem lock_balance (st : State) (h : all_free st) :
    (∀ u, ∃ r st1, ni_usb_sub_probe u st = some (r, st1) ∧
      (r = 0 ∨ r = -EMFILE) ∧ all_free st1) ∧
    (∀ intf, ∃ st1, ni_usb_sub_disconnect intf st = some st1 ∧ all_free st1) ∧
    (∀ d, ∃ r st1, ni_usb_attach d st = some (r, st1) ∧
      (r = 0 ∨ r = -ENODEV) ∧ all_free st1) ∧
    (∀ d, ∃ r st1, ni_usb_detach d st = some (r, st1) ∧
      (r = 0 ∨ r = -EFAULT) ∧ all_free st1) ∧
    (∀ (c : Call) (s s1 : State), step c s = some s1 →
      s1.start_stop_sem = s.start_stop_sem ∧
      ∀ j, (s1.ni_usb_sub j).sem = (s.ni_usb_sub j).sem ∨
        ((s.ni_usb_sub j).probed = 0 ∧ (s1.ni_usb_sub j).sem = 1)) := by
  obtain ⟨hg, hsem⟩ := h
  have hg0 : st.start_stop_sem ≠ 0 := by omega
  have hl0 : ∀ i, (st.ni_usb_sub i).sem ≠ 0 := fun i => by rw [hsem i]; decide
  have hupd : ∀ (i : Fin NUMNIUSB) (v : ni_usb_sub), v.sem = 1 →
      ∀ j, (Function.update st.ni_usb_sub i v j).sem = 1 := by
    intro i v hv j
    by_cases hji : j = i
    · subst hji
      simpa using hv
    · simp only [Function.update_noteq hji]
      exact hsem j
  refine ⟨?_, ?_, ?_, ?_, fun c s s1 hc => step_sem_counts hc⟩
  · intro u
    cases hs : scan is_free st.ni_usb_sub with
    | none => exact ⟨_, _, probe_full u st hg0 hs, Or.inr rfl, hg, hsem⟩
    | some i => exact ⟨_, _, probe_free u st i hg0 hs, Or.inl rfl, hg, hupd i _ rfl⟩
  · intro intf
    cases hd : (st.usb_interfaces intf).intfdata with
    | none => exact ⟨st, disconnect_no_data intf st hd, hg, hsem⟩
    | some i =>
      by_cases hu : (st.ni_usb_sub i).usbdev = some (st.usb_interfaces intf).usbdev
      · exact ⟨_, disconnect_match intf st i hd hu hg0 (hl0 i), hg, hsem⟩
      · exact ⟨st, disconnect_mismatch intf st i hd hu, hg, hsem⟩
  · intro d
    cases hs : scan is_ready st.ni_usb_sub with
    | none => exact ⟨_, _, attach_none d st hg0 hs, Or.inr rfl, hg, hsem⟩
    | some i =>
      exact ⟨_, _, attach_ready d st i hg0 (hl0 i) hs, Or.inl rfl, hg, hupd i _ (hsem i)⟩
  · intro d
    cases d with
    | none => exact ⟨_, _, detach_null st, Or.inr rfl, hg, hsem⟩
    | some d =>
      cases hp : (st.comedi_devices d).«private» with
      | none => exact ⟨_, _, detach_no_private d st hp, Or.inr rfl, hg, hsem⟩
      | some i =>
        exact ⟨_, _, detach_private d st i hp (hl0 i), Or.inl rfl, hg, hupd i _ (hsem i)⟩

/-- Witness of C18: the state at module load of the examples with every slot
`sem` initialised. -/
theorem lock_balance_witness :
    all_free demo_all_free ∧
    (∀ u, ∃ r st1, ni_usb_sub_probe u demo_all_free = some (r, st1) ∧
      (r = 0 ∨ r = -EMFILE) ∧ all_free st1) ∧
    (∀ intf, ∃ st1, ni_usb_sub_disconnect intf demo_all_free = some st1 ∧ all_free st1) ∧
    (∀ d, ∃ r st1, ni_usb_attach d demo_all_free = some (r, st1) ∧
      (r = 0 ∨ r = -ENODEV) ∧ all_free st1) ∧
    (∀ d, ∃ r st1, ni_usb_detach d demo_all_free = some (r, st1) ∧
      (r = 0 ∨ r = -EFAULT) ∧ all_free st1) ∧
    (∀ (c : Call) (s s1 : State), step c s = some s1 →
      s1.start_stop_sem = s.start_stop_sem ∧
      ∀ j, (s1.ni_usb_sub j).sem = (s.ni_usb_sub j).sem ∨
        ((s.ni_usb_sub j).probed = 0 ∧ (s1.ni_usb_sub j).sem = 1)) :=
  ⟨by unfold all_free; decide, lock_balance demo_all_free (by unfold all_free; decide)⟩

/-! ## Probed slots are never given back -/

theorem step_probed_kept {c : Call} {st st1 : State} (h : step c st = some st1)
    (j : Fin NUMNIUSB) (hj : (st.ni_usb_sub j).probed ≠ 0) : (st1.ni_usb_sub j).probed ≠ 0 := by
  cases c with
  | probe u =>
    simp only [step, Option.map_eq_some'] at h
    obtain ⟨⟨r, s⟩, h, rfl⟩ := h
    rcases (probe_table h j).2 with h2 | ⟨h2, _⟩
    · simp only [h2]; exact hj
    · exact absurd h2 hj
  | disconnect u =>
    simp only [step] at h
    rw [disconnect_table h]
    exact hj
  | attach d =>
    simp only [step, Option.map_eq_some'] at h
    obtain ⟨⟨r, s⟩, h, rfl⟩ := h
    simp only [(attach_table h j).1]
    exact hj
  | detach d =>
    simp only [step, Option.map_eq_some'] at h
    obtain ⟨⟨r, s⟩, h, rfl⟩ := h
    simp only [(detach_table h j).1]
    exact hj

theorem free_slots_step {c : Call} {st st1 : State} (h : step c st = some st1) :
    free_slots st1 ⊆ free_slots st := by
  intro j hj
  simp only [free_slots, Finset.mem_filter, Finset.mem_univ, true_and] at hj ⊢
  by_contra hc
  exact step_probed_kept h j hc hj

theorem free_slots_probe {u : Nat} {st st1 : State}
    (h : ni_usb_sub_probe u st = some (0, st1)) :
    (free_slots st1).card + 1 ≤ (free_slots st).card := by
  have hg := probe_returns h
  cases hs : scan is_free st.ni_usb_sub with
  | none =>
    rw [probe_full u st hg hs] at h
    simp [EMFILE] at h
  | some i =>
    rw [probe_free u st i hg hs] at h
    simp only [Option.some.injEq, Prod.mk.injEq, true_and] at h
    subst h
    have hi : (st.ni_usb_sub i).probed = 0 := by
      simpa [is_free] using ((scan_eq_some_iff _ _ _).mp hs).1
    apply Nat.succ_le_of_lt
    apply Finset.card_lt_card
    rw [Finset.ssubset_iff_of_subset]
    · exact ⟨i, by simp [free_slots, hi], by simp [free_slots]⟩
    · intro j hj
      simp only [free_slots, Finset.mem_filter, Finset.mem_univ, true_and] at hj ⊢
      by_cases hji : j = i
      · subst hji
        exact hi
      · simpa [Function.update_noteq hji] using hj

theorem probe_successes_le_free :
    ∀ (calls : List Call) (st : State), probe_successes calls st ≤ (free_slots st).card := by
  intro calls
  induction calls with
  | nil => intro st; simp [probe_successes]
  | cons c cs ih =>
    intro st
    unfold probe_successes
    cases hstep : step c st with
    | none => simp
    | some st1 =>
      simp only
      by_cases hsp : succeeded_probe c st = true
      · simp only [hsp, if_true]
        cases c with
        | probe u =>
          simp only [step, Option.map_eq_some'] at hstep
          obtain ⟨⟨r, s⟩, hp, rfl⟩ := hstep
          have hr : r = 0 := by
            simpa [succeeded_probe, hp] using hsp
          subst hr
          have h1 := ih s
          have := free_slots_probe hp
          show 1 + probe_successes cs s ≤ (free_slots st).card
          omega
        | disconnect u => simp [succeeded_probe] at hsp
        | attach d => simp [succeeded_probe] at hsp
        | detach d => simp [succeeded_probe] at hsp
      · simp only [hsp]
        have h1 := ih st1
        have := Finset.card_le_card (free_slots_step hstep)
        simp only [Bool.false_eq_true, if_false]
        omega

theorem free_slots_card_le (st : State) : (free_slots st).card ≤ NUMNIUSB := by
  have := Finset.card_filter_le (Finset.univ : Finset (Fin NUMNIUSB))
    (fun i => (st.ni_usb_sub i).probed = 0)
  simpa [free_slots] using this

/-- C20: no call changes a probed flag from set to clear: after a probe, a
disconnect, an attach or a detach every slot that was probed is still probed.
So in a run of any sequence of calls from the table at module load the number
of probe calls that return `0` is at most `NUMNIUSB = 16`, whatever disconnect
callbacks the sequence holds. -/
theorem probed_monotone :
    (∀ (c : Call) (st st1 : State), step c st = some st1 →
      ∀ j, (st.ni_usb_sub j).probed ≠ 0 → (st1.ni_usb_sub j).probed ≠ 0) ∧
    (∀ (devs : Nat → usb_device) (intfs : Nat → usb_interface) (cdevs : Nat → comedi_device)
      (calls : List Call),
      probe_successes calls (init_state devs intfs cdevs) ≤ NUMNIUSB) := by
  refine ⟨fun c st st1 h j hj => step_probed_kept h j hj, ?_⟩
  intro devs intfs cdevs calls
  exact le_trans (probe_successes_le_free calls _) (free_slots_card_le _)

set_option maxRecDepth 20000 in
/-- Witness of C20: three devices are plugged in and unplugged again, then
fourteen more are plugged in; sixteen probe calls return `0`, the last one does
not, and the bound holds with equality. -/
theorem probed_monotone_witness :
    probe_successes
      (probe_calls id 3 ++ [Call.disconnect 0, Call.disconnect 1, Call.disconnect 2] ++
        (List.range 14).map (fun n => Call.probe (n + 3))) demo_init = NUMNIUSB ∧
    probe_successes
      (probe_calls id 3 ++ [Call.disconnect 0, Call.disconnect 1, Call.disconnect 2] ++
        (List.range 14).map (fun n => Call.probe (n + 3)))
      (init_state demo_devs demo_intfs demo_cdevs) ≤ NUMNIUSB :=
  ⟨by decide, probed_monotone.2 demo_devs demo_intfs demo_cdevs _⟩

/-- C14, as the code has it: from the table at module load, for any kernel
objects, interfaces `a` and `b` and comedi devices `m5` and `m6`: the probe of
`a` takes slot 0 and the probe of `b` slot 1; the attach of `m5` claims slot 0
and leaves slot 1 unattached; the disconnect callback for `a` returns; a second
attach of `m5` returns `0` and claims slot 1; the attach of `m6` after it
returns `-ENODEV`. -/
theorem scenario_two_devices (devs : Nat → usb_device) (intfs : Nat → usb_interface)
    (cdevs : Nat → comedi_device) (a b m5 m6 : Nat) :
    ∃ s1 s2 s3 s4 s5 s6 : State,
      ni_usb_sub_probe a (init_state devs intfs cdevs) = some (0, s1) ∧
      (s1.ni_usb_sub 0).probed = 1 ∧ (s1.ni_usb_sub 1).probed = 0 ∧
      usb_get_intfdata s1 a = some 0 ∧
      ni_usb_sub_probe b s1 = some (0, s2) ∧
      (s2.ni_usb_sub 1).probed = 1 ∧ usb_get_intfdata s2 b = some 1 ∧
      ni_usb_attach m5 s2 = some (0, s3) ∧
      (s3.ni_usb_sub 0).attached = 1 ∧ (s3.ni_usb_sub 0).comedidev = some m5 ∧
      (s3.ni_usb_sub 1).attached = 0 ∧
      ni_usb_sub_disconnect a s3 = some s4 ∧
      ni_usb_attach m5 s4 = some (0, s5) ∧
      (s5.ni_usb_sub 1).attached = 1 ∧ (s5.ni_usb_sub 1).comedidev = some m5 ∧
      ni_usb_attach m6 s5 = some (-ENODEV, s6) := by
  obtain ⟨s4, h4, htbl, hsem⟩ := disconnect_of_locks_free a
    (state_after [Call.probe a, Call.probe b, Call.attach m5] (init_state devs intfs cdevs))
    Nat.one_ne_zero
    (by
      intro i
      fin_cases i
      · exact fun _ => Nat.one_ne_zero
      · exact fun _ => Nat.one_ne_zero
      all_goals exact fun hi => absurd rfl hi)
  have hg4 : s4.start_stop_sem ≠ 0 := by
    rw [hsem]
    exact Nat.one_ne_zero
  have hl4 : (s4.ni_usb_sub 1).sem ≠ 0 := by
    rw [htbl]
    exact Nat.one_ne_zero
  have hs4 : scan is_ready s4.ni_usb_sub = some 1 := by
    rw [htbl]
    rfl
  have h5 := attach_ready m5 s4 1 hg4 hl4 hs4
  have hi1 : usb_get_intfdata
      (state_after [Call.probe a] (init_state devs intfs cdevs)) a = some 0 := by
    show (Function.update intfs a _ a).intfdata = some 0
    simp only [Function.update_same]
    rfl
  have hi2 : usb_get_intfdata
      (state_after [Call.probe a, Call.probe b] (init_state devs intfs cdevs)) b = some 1 := by
    show ((Function.update _ b _ : Nat → usb_interface) b).intfdata = some 1
    simp only [Function.update_same]
    rfl
  refine ⟨state_after [Call.probe a] (init_state devs intfs cdevs),
    state_after [Call.probe a, Call.probe b] (init_state devs intfs cdevs),
    state_after [Call.probe a, Call.probe b, Call.attach m5] (init_state devs intfs cdevs),
    s4, _, _, rfl, rfl, rfl, hi1, rfl, rfl, hi2, rfl, rfl, rfl, rfl, h4, h5, by simp, by simp,
    attach_none m6 _ hg4 ?_⟩
  simp only [htbl]
  rfl

/-- C14 fails on the code: device A on interface 1 and device B on interface 2
are probed into slots 0 and 1 and comedi device 5 claims slot 0; the
disconnect callback for interface 1 finds slot 0 with the matching handle and
leaves it probed and attached, not free; the second attach of comedi device 5
returns `0`, not `-ENODEV`, and claims slot 1; the attach of comedi device 6
returns `-ENODEV` and slot 1 stays bound to device 5. -/
theorem scenario_two_devices_counterexample :
    run [Call.probe 1, Call.probe 2, Call.attach 5] demo_init
      = some (demo_after [Call.probe 1, Call.probe 2, Call.attach 5]) ∧
    usb_get_intfdata (demo_after [Call.probe 1, Call.probe 2, Call.attach 5]) 1 = some 0 ∧
    ((demo_after [Call.probe 1, Call.probe 2, Call.attach 5]).ni_usb_sub 0).usbdev
      = some (interface_to_usbdev (demo_after [Call.probe 1, Call.probe 2, Call.attach 5]) 1) ∧
    (ni_usb_sub_disconnect 1 (demo_after [Call.probe 1, Call.probe 2, Call.attach 5])).map
        (fun s => ((s.ni_usb_sub 0).probed, (s.ni_usb_sub 0).attached)) = some (1, 1) ∧
    ¬ (ni_usb_sub_disconnect 1 (demo_after [Call.probe 1, Call.probe 2, Call.attach 5])).map
        (fun s => ((s.ni_usb_sub 0).probed, (s.ni_usb_sub 0).attached)) = some (0, 0) ∧
    ((ni_usb_sub_disconnect 1 (demo_after [Call.probe 1, Call.probe 2, Call.attach 5])).bind
        (ni_usb_attach 5)).map (fun x => (x.1, (x.2.ni_usb_sub 1).comedidev))
      = some (0, some 5) ∧
    ¬ ((ni_usb_sub_disconnect 1 (demo_after [Call.probe 1, Call.probe 2, Call.attach 5])).bind
        (ni_usb_attach 5)).map Prod.fst = some (-ENODEV) ∧
    run [Call.probe 1, Call.probe 2, Call.attach 5, Call.disconnect 1, Call.attach 5] demo_init
      = some (demo_after
          [Call.probe 1, Call.probe 2, Call.attach 5, Call.disconnect 1, Call.attach 5]) ∧
    (ni_usb_attach 6 (demo_after
        [Call.probe 1, Call.probe 2, Call.attach 5, Call.disconnect 1, Call.attach 5])).map
      (fun x => (x.1, (x.2.ni_usb_sub 1).comedidev)) = some (-ENODEV, some 5) ∧
    ¬ (ni_usb_attach 6 (demo_after
        [Call.probe 1, Call.probe 2, Call.attach 5, Call.disconnect 1, Call.attach 5])).map
      Prod.fst = some 0 :=
  ⟨rfl, by decide, by decide, by decide, by decide, by decide, by decide, rfl, by decide,
    by decide⟩

end NiUsb
